import Mathlib

/-!
Verification development for the FyxerAI email ingestion / categorization /
triage pipeline (Django code base).  Python is shallowly embedded in Lean:
Python floats are modelled as exact rationals, dicts as insertion-ordered
association lists, the wall clock as an explicit hour parameter, and database
rows as plain structures mirroring `core/models.py`.
-/

namespace Fyxerai

/-! ## Generic string helpers (Python `in`, `lower`) -/

/-- Model of Python list/str prefix test on character lists. -/
def startsWithL : List Char → List Char → Bool
  | [], _ => true
  | _ :: _, [] => false
  | a :: as, b :: bs => a = b && startsWithL as bs

/-- True when `pat` occurs as a contiguous sublist of `hay`. -/
def containsL (pat : List Char) : List Char → Bool
  | [] => startsWithL pat []
  | a :: rest => startsWithL pat (a :: rest) || containsL pat rest

/-- Model of Python `pat in hay` substring containment on strings. -/
def strContains (hay pat : String) : Bool :=
  containsL pat.data hay.data

/-! ## A small regex engine

`core/services/categorization_engine.py` scores subjects with
`re.search(pattern, subject, re.IGNORECASE)`.  The seventeen patterns in
`CATEGORIES` use only: literal words, alternation groups, the word-boundary
assertion, whitespace/digit classes with `+` / `*`, the optional `.?`
wildcard, and the literal characters `%` and dollar.  The engine below
implements exactly those constructs (all subjects are lower-cased before
matching, so `IGNORECASE` is immaterial).  -/

/-- Python regex word character (`\w`, ASCII): letters, digits, underscore. -/
def isWordChar (c : Char) : Bool :=
  c.isAlphanum || c = '_'

/-- Python regex whitespace class `\s` (ASCII). -/
def isSpaceChar (c : Char) : Bool :=
  c = ' ' || c = '\t' || c = '\n' || c = '\x0d' || c = '\x0b' || c = '\x0c'

/-- Python regex digit class `\d` (ASCII). -/
def isDigitChar (c : Char) : Bool :=
  c.isDigit

/-- Regex abstract syntax: empty word, a single character, a character class,
the word boundary assertion, sequencing, alternation, option, and repetition
of a character class (`atLeastOne = true` models `+`, `false` models `*`). -/
inductive RE where
  | eps : RE
  | chr (c : Char) : RE
  | cls (p : Char → Bool) : RE
  | bnd : RE
  | seq (a b : RE) : RE
  | alt (a b : RE) : RE
  | opt (a : RE) : RE
  | rep (p : Char → Bool) (atLeastOne : Bool) : RE

/-- All ways to consume a (possibly empty) run of class characters; each
result is the pair (last consumed character, remaining input). -/
def runMatches (p : Char → Bool) (prev : Option Char) : List Char → List (Option Char × List Char)
  | [] => [(prev, [])]
  | a :: rest =>
      (prev, a :: rest) :: (if p a then runMatches p (some a) rest else [])

/-- Backtracking matcher: all ways `r` can match a prefix of `s`, given the
character immediately before `s` (needed for the word-boundary assertion). -/
def reMatch : RE → Option Char → List Char → List (Option Char × List Char)
  | .eps, prev, s => [(prev, s)]
  | .chr c, _prev, s =>
      match s with
      | [] => []
      | a :: rest => if a = c then [(some a, rest)] else []
  | .cls p, _prev, s =>
      match s with
      | [] => []
      | a :: rest => if p a then [(some a, rest)] else []
  | .bnd, prev, s =>
      let left := match prev with | none => false | some c => isWordChar c
      let right := match s with | [] => false | a :: _ => isWordChar a
      if left ≠ right then [(prev, s)] else []
  | .seq a b, prev, s =>
      (reMatch a prev s).flatMap (fun pr => reMatch b pr.1 pr.2)
  | .alt a b, prev, s => reMatch a prev s ++ reMatch b prev s
  | .opt a, prev, s => (prev, s) :: reMatch a prev s
  | .rep p one, prev, s =>
      if one then
        match s with
        | [] => []
        | a :: rest => if p a then runMatches p (some a) rest else []
      else runMatches p prev s

/-- Does `r` match starting at this position or any later one? -/
def searchAux (r : RE) : Option Char → List Char → Bool
  | prev, [] => !(reMatch r prev []).isEmpty
  | prev, a :: rest =>
      !(reMatch r prev (a :: rest)).isEmpty || searchAux r (some a) rest

/-- Model of Python `re.search(r, text) is not None`. -/
def reSearch (r : RE) (text : String) : Bool :=
  searchAux r none text.data

/-- Literal word as a regex. -/
def reWord (s : String) : RE :=
  s.data.foldr (fun c acc => RE.seq (RE.chr c) acc) RE.eps

/-- Alternation over a list of regexes (empty list never matches a char). -/
def reAlt : List RE → RE
  | [] => RE.cls (fun _ => false)
  | [r] => r
  | r :: rest => RE.alt r (reAlt rest)

/-- A parenthesised alternation of literal words. -/
def reGroup (ws : List String) : RE :=
  reAlt (ws.map reWord)

/-- Pattern of the shape backslash-b ( w1 | w2 | ... ) backslash-b. -/
def reBWord (ws : List String) : RE :=
  RE.seq RE.bnd (RE.seq (reGroup ws) RE.bnd)

/-! ## Rational helpers (Python float rounding) -/

/-- Round to the nearest integer, ties to even (Python `round` semantics on
exact values; Python floats are modelled as exact rationals throughout). -/
def rhe (q : ℚ) : ℤ :=
  if q - (⌊q⌋ : ℚ) < 1/2 then ⌊q⌋
  else if 1/2 < q - (⌊q⌋ : ℚ) then ⌊q⌋ + 1
  else if ⌊q⌋ % 2 = 0 then ⌊q⌋ else ⌊q⌋ + 1

/-- Model of Python `round(q, 3)`. -/
def round3 (q : ℚ) : ℚ :=
  (rhe (q * 1000) : ℚ) / 1000

/-! ## The category table

`EmailCategorizationEngine.CATEGORIES` from
`core/services/categorization_engine.py` (lines 29-127), embedded as an
insertion-ordered association list, preserving Python dict iteration order:
urgent, important, routine, promotional, spam, other. -/

/-- Per-category configuration, mirroring one entry of `CATEGORIES`. -/
structure CatConfig where
  priority : Nat
  description : String
  keywords : List String
  senderPatterns : List String
  subjectPatterns : List RE

/-- The six engine categories in dict insertion order. -/
def CATEGORIES : List (String × CatConfig) :=
  [ ("urgent",
     { priority := 5
       description := "Requires immediate attention within 1-2 hours"
       keywords := ["urgent", "asap", "emergency", "critical", "deadline today",
                    "immediate", "now", "rushing", "crisis", "breaking"]
       senderPatterns := ["ceo", "president", "director", "manager", "boss", "supervisor",
                          "legal", "compliance", "security", "incident"]
       subjectPatterns :=
         [ reBWord ["urgent", "emergency", "critical", "asap"],
           RE.seq RE.bnd (RE.seq (reGroup ["deadline", "due"])
             (RE.seq (RE.rep isSpaceChar true)
               (RE.seq (reGroup ["today", "now", "immediately"]) RE.bnd))),
           reBWord ["action required", "immediate attention"] ] }),
    ("important",
     { priority := 4
       description := "Needs attention within 24 hours"
       keywords := ["meeting", "project", "report", "review", "approval", "decision",
                    "conference", "presentation", "proposal", "contract", "budget"]
       senderPatterns := ["client", "customer", "partner", "vendor", "team lead",
                          "project manager", "account manager", "stakeholder"]
       subjectPatterns :=
         [ reBWord ["meeting", "conference", "call"],
           reBWord ["project", "proposal", "contract"],
           reBWord ["review", "approval", "decision"],
           reBWord ["report", "update", "status"] ] }),
    ("routine",
     { priority := 3
       description := "Standard business communication"
       keywords := ["update", "information", "notification", "reminder", "follow-up",
                    "schedule", "confirmation", "receipt", "invoice", "newsletter",
                    "digest"]
       senderPatterns := ["team", "colleague", "department", "hr", "admin",
                          "support", "service", "billing"]
       subjectPatterns :=
         [ reBWord ["update", "information", "notification"],
           RE.seq RE.bnd (RE.seq
             (reAlt [reWord "reminder",
                     RE.seq (reWord "follow") (RE.seq (RE.opt (RE.cls (fun c => c ≠ '\n'))) (reWord "up")),
                     reWord "confirmation"]) RE.bnd),
           reBWord ["newsletter", "digest", "summary"] ] }),
    ("promotional",
     { priority := 2
       description := "Marketing and promotional content"
       keywords := ["sale", "discount", "offer", "deal", "promotion", "special",
                    "limited time", "exclusive", "save", "free", "coupon"]
       senderPatterns := ["marketing", "sales", "promo", "deals", "offers",
                          "newsletter", "no-reply", "noreply"]
       subjectPatterns :=
         [ reBWord ["sale", "discount", "offer", "deal"],
           reBWord ["special", "exclusive", "limited"],
           reBWord ["save", "free", "coupon"],
           RE.seq (RE.chr '%') (RE.seq (RE.rep isSpaceChar false)
             (RE.seq (reWord "off") RE.bnd)) ] }),
    ("spam",
     { priority := 1
       description := "Unwanted or suspicious emails"
       keywords := ["winner", "lottery", "prize", "congratulations", "claim now",
                    "inheritance", "millions", "prince", "deceased", "beneficiary",
                    "viagra", "pills", "weight loss", "bitcoin", "investment"]
       senderPatterns := ["lottery", "winner", "claim", "inheritance", "beneficiary",
                          "investment", "trading", "forex"]
       subjectPatterns :=
         [ reBWord ["winner", "lottery", "prize", "congratulations"],
           reBWord ["claim", "inheritance", "millions"],
           RE.seq RE.bnd (RE.seq
             (reAlt [reWord "viagra", reWord "pills",
                     RE.seq (reWord "weight") (RE.seq (RE.opt (RE.cls (fun c => c ≠ '\n'))) (reWord "loss"))])
             RE.bnd),
           RE.seq (RE.chr '$') (RE.seq (RE.rep isDigitChar true)
             (RE.seq (RE.opt (RE.cls (fun c => c = ',' || c = '.')))
               (RE.seq (RE.rep isDigitChar false)
                 (RE.seq (RE.rep isSpaceChar false)
                   (reGroup ["million", "thousand"]))))) ] }),
    ("other",
     { priority := 2
       description := "General or unclassified emails"
       keywords := []
       senderPatterns := []
       subjectPatterns := [] }) ]

/-- Lookup of a category configuration (`CATEGORIES[name]`); the default is
never reached in the embedded flows. -/
def catConfigD (c : String) : CatConfig :=
  ((CATEGORIES.find? (fun p => p.1 = c)).map (fun p => p.2)).getD
    { priority := 0, description := "", keywords := [], senderPatterns := [], subjectPatterns := [] }

/-- Static priority of a category (`CATEGORIES[c].priority`). -/
def catPriority (c : String) : Nat :=
  (catConfigD c).priority

/-! ## Scoring (`categorize_email` and its helpers) -/

/-- Input to `categorize_email`: the keys of the `email_data` dict that the
scoring path reads (`subject`, `sender`, `body`; a missing key defaults to
the empty string, so plain strings suffice). -/
structure EmailData where
  subject : String
  sender : String
  body : String
deriving DecidableEq

/-- Model of `_calculate_keyword_score`: fraction of matched keywords over
`max(len(keywords)*0.3, 1)`, capped at 1. -/
def calcKeywordScore (keywords : List String) (text : String) : ℚ :=
  if text.isEmpty then 0
  else
    let nHits : ℚ := (keywords.countP (fun k => strContains text k.toLower) : ℚ)
    min (nHits / max ((keywords.length : ℚ) * (3/10)) 1) 1

/-- Model of `_calculate_sender_score`: fraction of matched sender patterns
over `max(len(patterns)*0.5, 1)`, capped at 1. -/
def calcSenderScore (patterns : List String) (sender : String) : ℚ :=
  if sender.isEmpty then 0
  else
    let nHits : ℚ := (patterns.countP (fun p => strContains sender p.toLower) : ℚ)
    min (nHits / max ((patterns.length : ℚ) * (1/2)) 1) 1

/-- Model of `_calculate_pattern_score`: fraction of matching subject
regexes, capped at 1; zero when the subject or the pattern list is empty. -/
def calcPatternScore (patterns : List RE) (subject : String) : ℚ :=
  if subject.isEmpty || patterns.isEmpty then 0
  else
    let nHits : ℚ := (patterns.countP (fun r => reSearch r subject) : ℚ)
    min (nHits / (patterns.length : ℚ)) 1

/-- Model of `_calculate_time_score`.  The source reads
`datetime.now().hour`; that hidden clock input is made an explicit `hour`
parameter here. -/
def calcTimeScore (category : String) (hour : Nat) : ℚ :=
  if (category = "urgent" ∨ category = "important") ∧ (9 ≤ hour ∧ hour ≤ 17) then 1/5
  else if category = "spam" ∧ (hour < 8 ∨ hour > 20) then 1/10
  else 0

/-- Model of `_calculate_category_score`: the four signals weighted
0.4 / 0.3 / 0.2 / 0.1 and capped at 1. -/
def calcCategoryScore (category : String) (cfg : CatConfig)
    (subject sender body : String) (hour : Nat) : ℚ :=
  let score :=
    calcKeywordScore cfg.keywords (subject ++ " " ++ body) * (4/10)
    + calcSenderScore cfg.senderPatterns sender * (3/10)
    + calcPatternScore cfg.subjectPatterns subject * (2/10)
    + calcTimeScore category hour * (1/10)
  min score 1

/-! ## User learning (`_load_learning_data` output, `_apply_user_learning`) -/

/-- The learning dict built by `_load_learning_data`: category adjustments
keyed first by sender pattern and, in principle, by keyword
(`keyword_patterns` is always empty in the source but the application loop
exists, so it is kept).  `none` stands for the empty dict returned when the
engine has no user, which disables learning. -/
structure LearningData where
  senderPatterns : List (String × List (String × ℚ))
  keywordPatterns : List (String × List (String × ℚ))
deriving DecidableEq

/-- Python `scores[category] = f(scores[category])` on an insertion-ordered
dict: the entry is updated in place. -/
def alUpdate (m : List (String × ℚ)) (k : String) (f : ℚ → ℚ) : List (String × ℚ) :=
  m.map (fun p => if p.1 = k then (p.1, f p.2) else p)

/-- Python `category in scores`. -/
def alMem (m : List (String × ℚ)) (k : String) : Bool :=
  m.any (fun p => p.1 = k)

/-- One learning adjustment: `if category in scores: scores[category] =
min(scores[category] + adjustment, 1.0)`. -/
def bumpScore (scores : List (String × ℚ)) (cat : String) (adj : ℚ) : List (String × ℚ) :=
  if alMem scores cat then alUpdate scores cat (fun v => min (v + adj) 1) else scores

/-- Apply every adjustment of one matched pattern. -/
def applyAdjusts (scores : List (String × ℚ)) (adjs : List (String × ℚ)) : List (String × ℚ) :=
  adjs.foldl (fun sc p => bumpScore sc p.1 p.2) scores

/-- Model of `_apply_user_learning` (the engine has a user and a non-empty
learning dict whenever this is reached).  `subject` and `sender` arrive
already lower-cased, exactly as in `categorize_email`; the keyword text is
re-built from the raw body, mirroring `email_data.get('body', '')`. -/
def applyUserLearning (l : LearningData) (scores : List (String × ℚ))
    (subject sender rawBody : String) : List (String × ℚ) :=
  let s1 := l.senderPatterns.foldl
    (fun sc p => if strContains sender p.1.toLower then applyAdjusts sc p.2 else sc) scores
  let text := (subject ++ " " ++ rawBody).toLower
  l.keywordPatterns.foldl
    (fun sc p => if strContains text p.1.toLower then applyAdjusts sc p.2 else sc) s1

/-! ## Selection and result assembly -/

/-- Python `max(items, key=lambda x: x[1])`: the first item attaining the
maximal value (later items replace only on strictly greater value). -/
def pickBest : (String × ℚ) → List (String × ℚ) → (String × ℚ)
  | best, [] => best
  | best, x :: xs => pickBest (if best.2 < x.2 then x else best) xs

/-- The per-category scores of `categorize_email` after the user-learning
adjustment (`category_scores` at line 163 of the source). -/
def adjustedScores (e : EmailData) (ld : Option LearningData) (hour : Nat) :
    List (String × ℚ) :=
  let subject := e.subject.toLower
  let sender := e.sender.toLower
  let body := e.body.toLower
  let base := CATEGORIES.map (fun p => (p.1, calcCategoryScore p.1 p.2 subject sender body hour))
  match ld with
  | some l => applyUserLearning l base subject sender e.body
  | none => base

/-- An apostrophe, kept out of source literals. -/
def sq : String := String.singleton (Char.ofNat 39)

/-- Python format `.1%`: percentage with one decimal, ties to even. -/
def formatPct1 (q : ℚ) : String :=
  let n : ℤ := rhe (q * 1000)
  toString (n / 10) ++ "." ++ toString (n % 10) ++ "%"

/-- Model of `_generate_explanation`. -/
def genExplanation (category : String) (confidence : ℚ) (subject sender : String) : String :=
  let cfg := catConfigD category
  let part1 := "Categorized as " ++ sq ++ category ++ sq ++ " with "
    ++ formatPct1 confidence ++ " confidence."
  let base := part1 ++ " " ++ cfg.description
  let base := if (cfg.keywords.take 3).any (fun k => strContains subject.toLower k) then
      base ++ " " ++ "Subject contains relevant keywords." else base
  if (cfg.senderPatterns.take 2).any (fun p => strContains sender.toLower p) then
    base ++ " " ++ "Sender matches typical pattern for this category." else base

/-- The dict returned by `categorize_email`. -/
structure CatResult where
  category : String
  confidence : ℚ
  priority : Nat
  explanation : String
  allScores : List (String × ℚ)
deriving DecidableEq

/-- Model of `categorize_email` (lines 134-182).  `ld` is the engine's
`self.learning_data` (`none` for the empty dict of a user-less engine, which
skips the adjustment step), `hour` the wall-clock hour read by
`_calculate_time_score`. -/
def categorizeEmail (e : EmailData) (ld : Option LearningData) (hour : Nat) : CatResult :=
  let subject := e.subject.toLower
  let sender := e.sender.toLower
  let scores := adjustedScores e ld hour
  let best := match scores with
    | [] => ("other", (0 : ℚ))
    | x :: xs => pickBest x xs
  let sel := if best.2 < 1/20 then ("other", (3 : ℚ)/10) else best
  { category := sel.1
    confidence := round3 sel.2
    priority := catPriority sel.1
    explanation := genExplanation sel.1 sel.2 subject sender
    allScores := scores.map (fun p => (p.1, round3 p.2)) }

/-! ## Stored messages and the update operations

`core/models.py` gives `EmailMessage` the fields `category` (CharField),
`priority` (CharField with choices high/medium/low), `ai_confidence`
(FloatField) and `manual_override` (BooleanField, commented "User manually
changed category", set to `True` by `CategoryUpdateSerializer.update`).
`recategorize_account_emails` assigns the engine's integer priority straight
into the CharField, so the stored priority is modelled as a sum of the two
shapes Django actually writes. -/

/-- A stored priority: either one of the model's string choices or the raw
integer written by `recategorize_account_emails` / `_sync_account`. -/
inductive PriorityVal where
  | strVal (s : String)
  | intVal (n : Nat)
deriving DecidableEq

/-- The `EmailMessage` columns the embedded operations read or write. -/
structure StoredEmail where
  messageId : String
  subject : String
  senderEmail : String
  bodyText : String
  receivedAt : Int
  category : String
  priority : PriorityVal
  aiConfidence : ℚ
  manualOverride : Bool
deriving DecidableEq

/-- The `category_map` dict of `categorize_and_update_email` (lines
455-461). -/
def categoryMap : List (String × String) :=
  [("urgent", "urgent"), ("important", "important"), ("routine", "other"),
   ("promotional", "promotion"), ("spam", "spam")]

/-- Python `category_map.get(result['category'], 'other')`. -/
def mapCategory (c : String) : String :=
  ((categoryMap.find? (fun p => p.1 = c)).map (fun p => p.2)).getD "other"

/-- Model of `categorize_and_update_email` (lines 427-480): categorize the
stored row and save the mapped category and the confidence (the stored
priority is not written by this path); returns the saved row and the engine
result.  No field of the row, `manual_override` included, is consulted
before overwriting. -/
def categorizeAndUpdateEmail (ld : Option LearningData) (hour : Nat)
    (email : StoredEmail) : StoredEmail × CatResult :=
  let emailData : EmailData :=
    { subject := email.subject, sender := email.senderEmail, body := email.bodyText }
  let result := categorizeEmail emailData ld hour
  let modelCategory := mapCategory result.category
  ({ email with category := modelCategory, aiConfidence := result.confidence }, result)

/-- Stable insertion into a list sorted by descending `receivedAt`
(Django `order_by('-received_at')`). -/
def insertDesc (m : StoredEmail) : List StoredEmail → List StoredEmail
  | [] => [m]
  | x :: xs => if x.receivedAt < m.receivedAt then m :: x :: xs else x :: insertDesc m xs

/-- Sort by descending `receivedAt`. -/
def sortDescReceived (l : List StoredEmail) : List StoredEmail :=
  l.foldr insertDesc []

/-- Python `d[k] = d.get(k, 0) + 1` on an insertion-ordered dict. -/
def alBumpNat (m : List (String × Nat)) (k : String) : List (String × Nat) :=
  if m.any (fun p => p.1 = k) then
    m.map (fun p => if p.1 = k then (p.1, p.2 + 1) else p)
  else m ++ [(k, 1)]

/-- Result of `bulk_categorize_pending_emails`: the saved rows plus the
returned statistics. -/
structure BulkOutcome where
  savedEmails : List StoredEmail
  processed : Nat
  updated : Nat
  categories : List (String × Nat)
deriving DecidableEq

/-- Model of `bulk_categorize_pending_emails` (lines 482-534): the rows with
category `'other'` (newest first, up to `limit`) are each passed to
`categorize_and_update_email`, counting processed and updated rows.  The
`manual_override` flag is not part of the filter. -/
def bulkCategorizePendingEmails (ld : Option LearningData) (hour : Nat)
    (emails : List StoredEmail) (limit : Nat) : BulkOutcome :=
  let pending :=
    (sortDescReceived (emails.filter (fun m => m.category = "other"))).take limit
  pending.foldl
    (fun acc m =>
      let pr := categorizeAndUpdateEmail ld hour m
      { acc with
        savedEmails := acc.savedEmails ++ [pr.1]
        processed := acc.processed + 1
        updated := if pr.2.category ≠ "other" then acc.updated + 1 else acc.updated
        categories := if pr.2.category ≠ "other" then alBumpNat acc.categories pr.2.category
          else acc.categories })
    { savedEmails := [], processed := 0, updated := 0, categories := [] }

/-- Model of the per-row body of `recategorize_account_emails` (lines
353-380): recategorize and, when the category changed, save the new
category, the integer priority and the confidence.  `manual_override` is
never read. -/
def recategorizeEmailStep (ld : Option LearningData) (hour : Nat)
    (email : StoredEmail) : StoredEmail :=
  let emailData : EmailData :=
    { subject := email.subject, sender := email.senderEmail, body := email.bodyText }
  let categorization := categorizeEmail emailData ld hour
  if email.category ≠ categorization.category then
    { email with
      category := categorization.category
      priority := PriorityVal.intVal categorization.priority
      aiConfidence := categorization.confidence }
  else email

/-- Model of `recategorize_account_emails` over the account's rows
(optionally filtered by category): the saved rows and the updated count. -/
def recategorizeAccountEmails (ld : Option LearningData) (hour : Nat)
    (emails : List StoredEmail) (categoryFilter : Option String) :
    List StoredEmail × Nat :=
  let selected := emails.filter (fun m =>
    match categoryFilter with
    | some c => m.category = c
    | none => true)
  selected.foldl
    (fun acc m =>
      let m2 := recategorizeEmailStep ld hour m
      (acc.1 ++ [m2], if m.category ≠ m2.category then acc.2 + 1 else acc.2))
    ([], 0)

/-! ## The cross-account learning pass

`CrossAccountSyncManager._apply_cross_account_learning`
(`core/services/account_sync.py`, lines 244-290) wraps its whole body in
`try/except Exception`, printing and swallowing any error.  Two statements
of that body reference attributes that do not exist on the models in
`core/models.py`:

* line 259 reads `email.sender`, but `EmailMessage` defines only
  `sender_email` and `sender_name` — an `AttributeError` on the first
  iteration whenever any message is in scope;
* lines 271-276 use `UserPreference.objects.get_or_create(...,
  defaults={"categorization_rules": "\x7b\x7d"})` and then read
  `preferences.categorization_rules`, but `UserPreference` defines only
  `category_rules` — a `TypeError` on creation or an `AttributeError` on
  read, reached even when the message loop is empty.

Both accesses are embedded as the errors they raise at runtime. -/

/-- The `UserPreference` columns relevant here.  Crucially the model has a
`category_rules` JSON field but no `categorization_rules` field. -/
structure UserPreference where
  categoryRules : List (String × String)
  learningEnabled : Bool
deriving DecidableEq

/-- Attribute access `email.sender` on an `EmailMessage` row: the model has
no such field, so Python raises. -/
def emailSenderAttr (_ : StoredEmail) : Except String String :=
  Except.error "AttributeError: EmailMessage has no attribute sender"

/-- Attribute access `preferences.categorization_rules` on a
`UserPreference` row (and the `defaults` keyword of the `get_or_create`
call): the model has no such field, so Python raises either way. -/
def prefsCategorizationRulesAttr (_ : UserPreference) : Except String String :=
  Except.error "AttributeError: UserPreference has no attribute categorization_rules"

/-- The `for email in all_emails` loop of `_apply_cross_account_learning`:
its first statement evaluates `email.sender`, so the loop errors on the
first element and succeeds only on an empty queryset. -/
def buildSenderDomainCounts (msgs : List StoredEmail) : Except String Unit :=
  msgs.foldlM (fun _ m => do
    let _ ← emailSenderAttr m
    pure ()) ()

/-- The body of `_apply_cross_account_learning` up to its first
uncatchable failure: filter to the last 60 days excluding category
`'pending'`, run the sender loop, then touch
`preferences.categorization_rules`.  Every statement after the second
attribute access is unreachable at runtime. -/
def applyCrossAccountLearningBody (now : Int) (msgs : List StoredEmail)
    (prefs : UserPreference) : Except String UserPreference :=
  let allEmails := msgs.filter
    (fun m => now - 5184000 ≤ m.receivedAt && m.category ≠ "pending")
  match buildSenderDomainCounts allEmails with
  | Except.error e => Except.error e
  | Except.ok _ =>
      match prefsCategorizationRulesAttr prefs with
      | Except.error e => Except.error e
      | Except.ok _ =>
          Except.error "unreachable: the preceding attribute access always raises"

/-- Model of `_apply_cross_account_learning`: the `try/except` swallows any
exception from the body, leaving the stored preferences untouched. -/
def applyCrossAccountLearning (now : Int) (msgs : List StoredEmail)
    (prefs : UserPreference) : UserPreference :=
  match applyCrossAccountLearningBody now msgs prefs with
  | Except.ok p => p
  | Except.error _ => prefs

/-! ## Sync window (`_sync_account`, account_sync.py lines 149-154) -/

/-- Model of the sync-window computation, timestamps in seconds:
`timedelta(days=30)` = 2592000 s, `timedelta(hours=1)` = 3600 s.  `none`
models a null `account.last_sync` (the only falsy datetime value). -/
def computeSyncSince (forceFullSync : Bool) (lastSync : Option Int) (now : Int) : Int :=
  match forceFullSync, lastSync with
  | true, _ => now - 2592000
  | false, none => now - 2592000
  | false, some t => t - 3600

/-! ## Retry with backoff (`_execute_with_retry`, gmail_service.py 420-450) -/

/-- One attempt's outcome for a Google API request: success, an `HttpError`
carrying `int(e.resp.status)` (or `none` when the status is absent or
non-numeric), or any other exception. -/
inductive ApiOutcome (α : Type) where
  | ok (a : α)
  | httpError (status : Option Int)
  | otherExc (msg : String)

/-- A propagated failure. -/
inductive ApiFailure where
  | http (status : Option Int)
  | exc (msg : String)
deriving DecidableEq

/-- The transient statuses of line 436: `status in (429, 500, 502, 503,
504)`. -/
def transientStatus : Option Int → Bool
  | some s => s = 429 || s = 500 || s = 502 || s = 503 || s = 504
  | none => false

/-- The retry loop: `remaining` counts the attempts left (starting at
`max_retries`), `k` the current attempt index, `delay` the current backoff;
`sleeps` records each executed `time.sleep(delay)` in order.  Mirrors lines
424-450: a transient `HttpError` — or any non-`HttpError` exception — is
retried while `attempt < max_retries - 1`, sleeping and doubling the delay;
everything else re-raises; a zero-iteration loop returns `None`. -/
def runRetry (f : Nat → ApiOutcome α) :
    Nat → Nat → ℚ → List ℚ → Except ApiFailure (Option α) × List ℚ
  | 0, _, _, sleeps => (Except.ok none, sleeps)
  | r + 1, k, delay, sleeps =>
      match f k with
      | .ok a => (Except.ok (some a), sleeps)
      | .httpError s =>
          if transientStatus s && decide (0 < r) then
            runRetry f r (k + 1) (delay * 2) (sleeps ++ [delay])
          else (Except.error (ApiFailure.http s), sleeps)
      | .otherExc m =>
          if decide (0 < r) then
            runRetry f r (k + 1) (delay * 2) (sleeps ++ [delay])
          else (Except.error (ApiFailure.exc m), sleeps)

/-- Model of `_execute_with_retry`: a falsy request returns `None`
immediately; otherwise the loop runs with `delay = 1.0`. -/
def executeWithRetry (request : Option (Nat → ApiOutcome α)) (maxRetries : Nat) :
    Except ApiFailure (Option α) × List ℚ :=
  match request with
  | none => (Except.ok none, [])
  | some f => runRetry f maxRetries 0 1 []

/-! ## Label triage (`LabelManager.process_triage_results`)

`core/services/label_manager.py`, platform `'gmail'` with an authenticated
`gmail_service` (the gmail-only branches are guarded by exactly that in the
source).  External mutation calls (`_apply_action`, `batch_modify`) are
modelled by an environment function `applyOk` giving each per-message
action's boolean outcome, and by a trace of the issued `batch_modify`
calls.  Per-email timestamps (`timezone.now().isoformat()`) and the
fire-and-forget `_send_notification` are omitted: neither influences any
returned field used below. -/

/-- One element of the `emails` request list; only `email.get('id')` is
read by the embedded paths. -/
structure EmailInput where
  id : Option String
deriving DecidableEq

/-- One element of `categorization_results`: the `category` and
`confidence` keys, absent keys defaulting via `.get`. -/
structure CategorizationInput where
  category : Option String
  confidence : Option ℚ
deriving DecidableEq

/-- `LabelManager.CATEGORY_ACTIONS`, restricted to the `gmail_actions`
lists (lines 25-56). -/
def CATEGORY_ACTIONS : List (String × List String) :=
  [("urgent", ["apply_label", "mark_important", "add_star"]),
   ("important", ["apply_label", "add_star"]),
   ("routine", ["apply_label"]),
   ("promotional", ["apply_label", "move_to_promotions"]),
   ("spam", ["apply_label", "move_to_spam"])]

/-- Python `self.CATEGORY_ACTIONS.get(category, dict()).get('gmail_actions', [])`. -/
def gmailActionsOf (c : String) : List String :=
  ((CATEGORY_ACTIONS.find? (fun p => p.1 = c)).map (fun p => p.2)).getD []

/-- The categories for which `setup_fyxerai_labels` returns a label id:
the keys of `GmailService.FYXERAI_LABELS` (gmail_service.py lines 52-83). -/
def FYXERAI_LABEL_CATS : List String :=
  ["urgent", "important", "routine", "promotional", "spam"]

/-- One `actions_applied` entry. -/
structure ActionRecord where
  action : String
  success : Bool
deriving DecidableEq

/-- One `label_applications` entry (the per-email result dict). -/
structure EmailResult where
  emailId : Option String
  category : String
  confidence : ℚ
  actionsApplied : List ActionRecord
  success : Bool
  error : Option String
deriving DecidableEq

/-- The fixed-key `statistics` dict initialised at lines 86-92. -/
structure Stats where
  urgent : Nat
  important : Nat
  routine : Nat
  promotional : Nat
  spam : Nat
deriving DecidableEq

/-- Python `str(KeyError(c))`, which is the key wrapped in single quotes. -/
def keyErrorStr (c : String) : String :=
  sq ++ c ++ sq

/-- `results['statistics'][category] += 1`: a `KeyError` for any key
outside the five initialised ones. -/
def statsIncr (s : Stats) (c : String) : Except String Stats :=
  if c = "urgent" then Except.ok { s with urgent := s.urgent + 1 }
  else if c = "important" then Except.ok { s with important := s.important + 1 }
  else if c = "routine" then Except.ok { s with routine := s.routine + 1 }
  else if c = "promotional" then Except.ok { s with promotional := s.promotional + 1 }
  else if c = "spam" then Except.ok { s with spam := s.spam + 1 }
  else Except.error (keyErrorStr c)

/-- Model of `_process_single_email` (non-batch path, lines 144-188):
build the result dict and apply every gmail action of the category through
`_apply_action`; `success` stays `True` (a failing action only logs). -/
def processSingleEmail (applyOk : Option String → String → Bool)
    (e : EmailInput) (cz : CategorizationInput) : EmailResult :=
  let category := cz.category.getD "routine"
  { emailId := e.id
    category := category
    confidence := cz.confidence.getD (1/2)
    actionsApplied := (gmailActionsOf category).map
      (fun a => { action := a, success := applyOk e.id a })
    success := true
    error := none }

/-- `emails_by_category.setdefault(category, []).append(id)`. -/
def setdefaultAppend (m : List (String × List (Option String))) (k : String)
    (v : Option String) : List (String × List (Option String)) :=
  if m.any (fun p => p.1 = k) then
    m.map (fun p => if p.1 = k then (p.1, p.2 ++ [v]) else p)
  else m ++ [(k, [v])]

/-- The mutable state threaded through the `for email, categorization in
zip(...)` loop. -/
structure TriageState where
  processedCount : Nat
  labelApplications : List EmailResult
  errors : List (Option String × String)
  statistics : Stats
  emailsByCategory : List (String × List (Option String))
deriving DecidableEq

/-- One step of the `for action in actions_config.get('gmail_actions', [])`
loop of the batch branch (lines 112-118): an `apply_label` action is
deferred into the per-category grouping, any other action is applied
immediately through `_apply_action`. -/
def triageActionStep (applyOk : Option String → String → Bool) (category : String)
    (eid : Option String)
    (acc : EmailResult × List (String × List (Option String))) (action : String) :
    EmailResult × List (String × List (Option String)) :=
  if action = "apply_label" then
    ({ acc.1 with actionsApplied := acc.1.actionsApplied ++ [{ action := action, success := true }] },
     setdefaultAppend acc.2 category eid)
  else
    ({ acc.1 with actionsApplied := acc.1.actionsApplied ++ [{ action := action, success := applyOk eid action }] },
     acc.2)

/-- One iteration of the loop (lines 97-129).  The whole body sits in a
`try/except`; the only failing statement in this model is the statistics
update, and the mutations made before it persist, exactly as in Python. -/
def processOneEmail (useBatch : Bool) (applyOk : Option String → String → Bool)
    (st : TriageState) (e : EmailInput) (cz : CategorizationInput) : TriageState :=
  let category := cz.category.getD "routine"
  let baseResult : EmailResult :=
    { emailId := e.id, category := category, confidence := cz.confidence.getD (1/2),
      actionsApplied := [], success := true, error := none }
  let emailResult := if useBatch then baseResult else processSingleEmail applyOk e cz
  let collected :=
    if useBatch then
      (gmailActionsOf category).foldl (triageActionStep applyOk category e.id)
        (emailResult, st.emailsByCategory)
    else (emailResult, st.emailsByCategory)
  let emailResult := collected.1
  let st := { st with emailsByCategory := collected.2 }
  if emailResult.success then
    let st := { st with
      processedCount := st.processedCount + 1
      labelApplications := st.labelApplications ++ [emailResult] }
    match statsIncr st.statistics category with
    | Except.ok s2 => { st with statistics := s2 }
    | Except.error msg => { st with errors := st.errors ++ [(e.id, msg)] }
  else
    { st with errors := st.errors ++ [(e.id, emailResult.error.getD "Unknown error")] }

/-- The dict returned by `process_triage_results`, extended with the trace
of `gmail_service.batch_modify` invocations issued by lines 132-139. -/
structure TriageOutcome where
  success : Bool
  processedCount : Nat
  labelApplications : List EmailResult
  errors : List (Option String × String)
  statistics : Stats
  batchCalls : List (String × List (Option String))
deriving DecidableEq

/-- Model of `process_triage_results` (lines 71-142).  A length mismatch
returns the early failure dict; otherwise the loop runs and, in batch mode
with a non-empty grouping, one `batch_modify([ids], add FYXERAI label)` call
is issued per grouped category that received a label id from
`setup_fyxerai_labels`. -/
def processTriageResults (useBatch : Bool)
    (applyOk : Option String → String → Bool)
    (emails : List EmailInput) (czs : List CategorizationInput) : TriageOutcome :=
  if emails.length ≠ czs.length then
    { success := false, processedCount := 0, labelApplications := [], errors := [],
      statistics := ⟨0, 0, 0, 0, 0⟩, batchCalls := [] }
  else
    let st := (emails.zip czs).foldl
      (fun st p => processOneEmail useBatch applyOk st p.1 p.2)
      { processedCount := 0, labelApplications := [], errors := [],
        statistics := ⟨0, 0, 0, 0, 0⟩, emailsByCategory := [] }
    let batchCalls :=
      if useBatch && !st.emailsByCategory.isEmpty then
        st.emailsByCategory.filterMap
          (fun p => if !p.2.isEmpty && FYXERAI_LABEL_CATS.contains p.1 then some p else none)
      else []
    { success := true, processedCount := st.processedCount,
      labelApplications := st.labelApplications, errors := st.errors,
      statistics := st.statistics, batchCalls := batchCalls }

/-- Specification-side grouping: the ids of the request emails whose
category is `c` and whose action table batches a label application. -/
def applyLabelIds (emails : List EmailInput) (czs : List CategorizationInput)
    (c : String) : List (Option String) :=
  (emails.zip czs).filterMap
    (fun p =>
      let cat := p.2.category.getD "routine"
      if cat = c && (gmailActionsOf cat).contains "apply_label" then some p.1.id else none)

/-! ## Specification-side notions and concrete inputs used by the claims -/

/-- The engine's category enumeration, in table order. -/
def engineCategories : List String :=
  ["urgent", "important", "routine", "promotional", "spam", "other"]

/-- The categories any embedded storage path can write: the engine
enumeration (written verbatim by `_sync_account` and
`recategorize_account_emails`) together with `promotion`, the image of
`promotional` under `categorize_and_update_email`'s `category_map`. -/
def storedCategories : List String :=
  ["urgent", "important", "routine", "promotional", "spam", "other", "promotion"]

/-- Every adjustment in the learning dict is non-negative.  This holds for
every dict `_load_learning_data` can produce, whose adjustments are
`min((count/total)*0.2, 0.2)` with positive counts. -/
def ldNonneg : Option LearningData → Bool
  | none => true
  | some l =>
      l.senderPatterns.all (fun p => p.2.all (fun q => decide (0 ≤ q.2)))
      && l.keywordPatterns.all (fun p => p.2.all (fun q => decide (0 ≤ q.2)))

/-- No learning adjustment targets the `other` category.  This holds for
every dict `_load_learning_data` can produce: its query excludes rows with
`category='other'`, so `other` never becomes an adjustment key. -/
def ldNoOther : Option LearningData → Bool
  | none => true
  | some l =>
      l.senderPatterns.all (fun p => p.2.all (fun q => q.1 ≠ "other"))
      && l.keywordPatterns.all (fun p => p.2.all (fun q => q.1 ≠ "other"))

/-- Concrete email whose body is the single keyword `urgent`. -/
def emailUrgentBody : EmailData :=
  { subject := "", sender := "", body := "urgent" }

/-- Concrete email with all fields empty. -/
def emailEmpty : EmailData :=
  { subject := "", sender := "", body := "" }

/-- Concrete email whose only signal is the promotional sender pattern
`sales`. -/
def emailPromoSender : EmailData :=
  { subject := "", sender := "sales@store.com", body := "" }

/-- Concrete stored row whose category was manually pinned to `other`
(`manual_override = True`), with promotable content in the body. -/
def storedManual : StoredEmail :=
  { messageId := "m-manual", subject := "", senderEmail := "", bodyText := "urgent",
    receivedAt := 100, category := "other", priority := PriorityVal.strVal "medium",
    aiConfidence := 0, manualOverride := true }

/-- Concrete stored row with a promotional sender, used to exhibit the
`promotion` model category. -/
def storedPromo : StoredEmail :=
  { messageId := "m-promo", subject := "", senderEmail := "sales@store.com", bodyText := "",
    receivedAt := 100, category := "other", priority := PriorityVal.strVal "medium",
    aiConfidence := 0, manualOverride := false }

/-- A learning dict that boosts urgent and important equally for every
sender (the empty pattern is a substring of every sender). -/
def ldTie : LearningData :=
  { senderPatterns := [("", [("urgent", 1/10), ("important", 1/10)])]
    keywordPatterns := [] }

/-- Concrete triage request: three messages. -/
def triageEmails : List EmailInput :=
  [{ id := some "g1" }, { id := some "g2" }, { id := some "g3" }]

/-- Categorizations scoring two messages `urgent` and one `routine`. -/
def triageCzs : List CategorizationInput :=
  [{ category := some "urgent", confidence := some (9/10) },
   { category := some "urgent", confidence := some (8/10) },
   { category := some "routine", confidence := some (6/10) }]

/-- Categorizations whose first entry is the engine's `other` fallback. -/
def triageCzsOther : List CategorizationInput :=
  [{ category := some "other", confidence := some (3/10) },
   { category := some "urgent", confidence := some (8/10) },
   { category := some "routine", confidence := some (6/10) }]

/-- An environment in which every per-message mutation succeeds. -/
def applyOkAll : Option String → String → Bool := fun _ _ => true

/-- A request failing once with a non-HTTP exception, then succeeding. -/
def reqExcOnce : Nat → ApiOutcome Nat :=
  fun k => if k = 0 then ApiOutcome.otherExc "ConnectionError" else ApiOutcome.ok 0

/-- A request failing with HTTP 429 twice, then succeeding. -/
def req429Twice : Nat → ApiOutcome Nat :=
  fun k => if k < 2 then ApiOutcome.httpError (some 429) else ApiOutcome.ok 7

/-- A request that always fails with HTTP 404. -/
def req404 : Nat → ApiOutcome Nat :=
  fun _ => ApiOutcome.httpError (some 404)

/-! # Theorems -/

/-! ## Bounds: every score stays in the unit interval -/

theorem calcKeywordScore_bounds (k : List String) (t : String) :
    0 ≤ calcKeywordScore k t ∧ calcKeywordScore k t ≤ 1 := by
  unfold calcKeywordScore
  split_ifs
  · norm_num
  · constructor
    · refine le_min (div_nonneg (Nat.cast_nonneg _) ?_) zero_le_one
      exact le_trans zero_le_one (le_max_right _ 1)
    · exact min_le_right _ 1

theorem calcSenderScore_bounds (pats : List String) (s : String) :
    0 ≤ calcSenderScore pats s ∧ calcSenderScore pats s ≤ 1 := by
  unfold calcSenderScore
  split_ifs
  · norm_num
  · constructor
    · refine le_min (div_nonneg (Nat.cast_nonneg _) ?_) zero_le_one
      exact le_trans zero_le_one (le_max_right _ 1)
    · exact min_le_right _ 1

theorem calcPatternScore_bounds (pats : List RE) (s : String) :
    0 ≤ calcPatternScore pats s ∧ calcPatternScore pats s ≤ 1 := by
  unfold calcPatternScore
  split_ifs
  · norm_num
  · constructor
    · exact le_min (div_nonneg (Nat.cast_nonneg _) (Nat.cast_nonneg _)) zero_le_one
    · exact min_le_right _ 1

theorem calcTimeScore_bounds (c : String) (hour : Nat) :
    0 ≤ calcTimeScore c hour ∧ calcTimeScore c hour ≤ 1 := by
  unfold calcTimeScore
  split_ifs <;> norm_num

theorem calcCategoryScore_bounds (c : String) (cfg : CatConfig)
    (subject sender body : String) (hour : Nat) :
    0 ≤ calcCategoryScore c cfg subject sender body hour
    ∧ calcCategoryScore c cfg subject sender body hour ≤ 1 := by
  unfold calcCategoryScore
  constructor
  · refine le_min ?_ zero_le_one
    have h1 := (calcKeywordScore_bounds cfg.keywords (subject ++ " " ++ body)).1
    have h2 := (calcSenderScore_bounds cfg.senderPatterns sender).1
    have h3 := (calcPatternScore_bounds cfg.subjectPatterns subject).1
    have h4 := (calcTimeScore_bounds c hour).1
    have w1 : (0:ℚ) ≤ 4/10 := by norm_num
    have w2 : (0:ℚ) ≤ 3/10 := by norm_num
    have w3 : (0:ℚ) ≤ 2/10 := by norm_num
    have w4 : (0:ℚ) ≤ 1/10 := by norm_num
    exact add_nonneg (add_nonneg (add_nonneg (mul_nonneg h1 w1) (mul_nonneg h2 w2))
      (mul_nonneg h3 w3)) (mul_nonneg h4 w4)
  · exact min_le_right _ 1

theorem bounded_bumpScore (m : List (String × ℚ)) (c : String) (adj : ℚ)
    (hadj : 0 ≤ adj) (h : ∀ p ∈ m, 0 ≤ p.2 ∧ p.2 ≤ 1) :
    ∀ p ∈ bumpScore m c adj, 0 ≤ p.2 ∧ p.2 ≤ 1 := by
  intro p hp
  unfold bumpScore at hp
  split_ifs at hp
  · unfold alUpdate at hp
    rcases List.mem_map.mp hp with ⟨q, hq, hqe⟩
    by_cases hqc : q.1 = c
    · rw [if_pos hqc] at hqe
      rw [← hqe]
      refine ⟨le_min (add_nonneg (h q hq).1 hadj) zero_le_one, min_le_right _ 1⟩
    · rw [if_neg hqc] at hqe
      exact h p (hqe ▸ hq)
  · exact h p hp

theorem bounded_applyAdjusts : ∀ (adjs : List (String × ℚ)) (m : List (String × ℚ)),
    (∀ q ∈ adjs, 0 ≤ q.2) → (∀ p ∈ m, 0 ≤ p.2 ∧ p.2 ≤ 1) →
    ∀ p ∈ applyAdjusts m adjs, 0 ≤ p.2 ∧ p.2 ≤ 1 := by
  intro adjs
  induction adjs with
  | nil => intro m _ h; exact h
  | cons x xs ih =>
      intro m hadj h
      simp only [applyAdjusts, List.foldl_cons]
      exact ih _ (fun q hq => hadj q (List.mem_cons_of_mem _ hq))
        (bounded_bumpScore m x.1 x.2 (hadj x (List.mem_cons_self _ _)) h)

theorem bounded_applyUserLearning (l : LearningData) (m : List (String × ℚ))
    (subject sender rawBody : String)
    (hl1 : ∀ p ∈ l.senderPatterns, ∀ q ∈ p.2, 0 ≤ q.2)
    (hl2 : ∀ p ∈ l.keywordPatterns, ∀ q ∈ p.2, 0 ≤ q.2)
    (h : ∀ p ∈ m, 0 ≤ p.2 ∧ p.2 ≤ 1) :
    ∀ p ∈ applyUserLearning l m subject sender rawBody, 0 ≤ p.2 ∧ p.2 ≤ 1 := by
  unfold applyUserLearning
  have step1 : ∀ (pats : List (String × List (String × ℚ)))
      (hpats : ∀ p ∈ pats, ∀ q ∈ p.2, 0 ≤ q.2) (txt : String)
      (m0 : List (String × ℚ)) (hm0 : ∀ p ∈ m0, 0 ≤ p.2 ∧ p.2 ≤ 1),
      ∀ p ∈ pats.foldl (fun sc q => if strContains txt q.1.toLower
          then applyAdjusts sc q.2 else sc) m0, 0 ≤ p.2 ∧ p.2 ≤ 1 := by
    intro pats
    induction pats with
    | nil => intro _ _ m0 hm0; exact hm0
    | cons x xs ih =>
        intro hpats txt m0 hm0
        simp only [List.foldl_cons]
        refine ih (fun p hp => hpats p (List.mem_cons_of_mem _ hp)) txt _ ?_
        dsimp only
        split_ifs
        · exact bounded_applyAdjusts x.2 m0 (hpats x (List.mem_cons_self _ _)) hm0
        · exact hm0
  exact step1 l.keywordPatterns hl2 _ _ (step1 l.senderPatterns hl1 _ m h)

theorem bounded_adjustedScores (e : EmailData) (ld : Option LearningData)
    (hour : Nat) (hld : ldNonneg ld = true) :
    ∀ p ∈ adjustedScores e ld hour, 0 ≤ p.2 ∧ p.2 ≤ 1 := by
  have hbase : ∀ p ∈ CATEGORIES.map (fun p =>
      (p.1, calcCategoryScore p.1 p.2 e.subject.toLower e.sender.toLower e.body.toLower hour)),
      0 ≤ p.2 ∧ p.2 ≤ 1 := by
    intro p hp
    rcases List.mem_map.mp hp with ⟨q, _, hqe⟩
    rw [← hqe]
    exact calcCategoryScore_bounds q.1 q.2 _ _ _ hour
  unfold adjustedScores
  cases ld with
  | none => exact hbase
  | some l =>
      unfold ldNonneg at hld
      rw [Bool.and_eq_true] at hld
      refine bounded_applyUserLearning l _ _ _ _ ?_ ?_ hbase
      · intro p hp q hq
        have h1 := List.all_eq_true.mp hld.1 p hp
        have h2 := List.all_eq_true.mp h1 q hq
        exact of_decide_eq_true h2
      · intro p hp q hq
        have h1 := List.all_eq_true.mp hld.2 p hp
        have h2 := List.all_eq_true.mp h1 q hq
        exact of_decide_eq_true h2

/-! ## Bounds of half-even rounding -/

theorem rhe_cases (q : ℚ) : rhe q = ⌊q⌋ ∨ rhe q = ⌊q⌋ + 1 := by
  unfold rhe
  split_ifs <;> simp

theorem rhe_nonneg (q : ℚ) (h : 0 ≤ q) : 0 ≤ rhe q := by
  rcases rhe_cases q with hc | hc <;> rw [hc]
  · exact Int.floor_nonneg.mpr h
  · have := Int.floor_nonneg.mpr h
    omega

theorem rhe_le_of_le (q : ℚ) (n : ℤ) (h : q ≤ n) : rhe q ≤ n := by
  unfold rhe
  split_ifs with h1 h2 h3
  · exact_mod_cast le_trans (Int.floor_le q) h
  · have hx : ((⌊q⌋ : ℤ) : ℚ) < (n : ℚ) := by linarith
    have hn : ⌊q⌋ < n := by exact_mod_cast hx
    omega
  · exact_mod_cast le_trans (Int.floor_le q) h
  · have h1a := not_lt.mp h1
    have hx : ((⌊q⌋ : ℤ) : ℚ) < (n : ℚ) := by linarith
    have hn : ⌊q⌋ < n := by exact_mod_cast hx
    omega

theorem round3_bounds (q : ℚ) (h0 : 0 ≤ q) (h1 : q ≤ 1) :
    0 ≤ round3 q ∧ round3 q ≤ 1 := by
  unfold round3
  constructor
  · apply div_nonneg _ (by norm_num)
    exact_mod_cast rhe_nonneg (q * 1000) (mul_nonneg h0 (by norm_num))
  · rw [div_le_one (by norm_num)]
    have h2 : rhe (q * 1000) ≤ 1000 := rhe_le_of_le _ 1000 (by push_cast; linarith)
    exact_mod_cast h2

/-! ## Generic helper lemmas -/

theorem foldl_preserve {α β : Type} (P : α → Prop) (step : α → β → α)
    (h : ∀ a b, P a → P (step a b)) :
    ∀ (l : List β) (a : α), P a → P (l.foldl step a) := by
  intro l
  induction l with
  | nil => intro a ha; exact ha
  | cons x xs ih => intro a ha; exact ih _ (h a x ha)

theorem pickBest_mem : ∀ (xs : List (String × ℚ)) (x : String × ℚ),
    pickBest x xs ∈ x :: xs := by
  intro xs
  induction xs with
  | nil => intro x; simp [pickBest]
  | cons y ys ih =>
      intro x
      simp only [pickBest]
      rcases List.mem_cons.mp (ih (if x.2 < y.2 then y else x)) with h | h
      · rw [h]
        split_ifs <;> simp
      · simp [List.mem_cons, Or.inr (Or.inr h)]

theorem pickBest_le : ∀ (xs : List (String × ℚ)) (x p : String × ℚ),
    p ∈ x :: xs → p.2 ≤ (pickBest x xs).2 := by
  intro xs
  induction xs with
  | nil =>
      intro x p hp
      rcases List.mem_cons.mp hp with h | h
      · rw [h]; simp [pickBest]
      · simp at h
  | cons y ys ih =>
      intro x p hp
      simp only [pickBest]
      have hxz : x.2 ≤ (if x.2 < y.2 then y else x).2 := by
        split_ifs with h
        · exact le_of_lt h
        · exact le_refl _
      have hyz : y.2 ≤ (if x.2 < y.2 then y else x).2 := by
        split_ifs with h
        · exact le_refl _
        · exact not_lt.mp h
      have hz : ((if x.2 < y.2 then y else x)).2
          ≤ (pickBest (if x.2 < y.2 then y else x) ys).2 :=
        ih _ _ (List.mem_cons_self _ _)
      rcases List.mem_cons.mp hp with h | h
      · rw [h]; exact le_trans hxz hz
      · rcases List.mem_cons.mp h with h2 | h2
        · rw [h2]; exact le_trans hyz hz
        · exact ih _ p (List.mem_cons_of_mem _ h2)

/-! ## Key and value invariants of the learning adjustment -/

theorem keys_alUpdate (m : List (String × ℚ)) (k : String) (f : ℚ → ℚ) :
    (alUpdate m k f).map Prod.fst = m.map Prod.fst := by
  induction m with
  | nil => rfl
  | cons p ps ih =>
      simp only [alUpdate, List.map_cons] at *
      rw [ih]
      congr 1
      split_ifs <;> rfl

theorem keys_bumpScore (m : List (String × ℚ)) (c : String) (adj : ℚ) :
    (bumpScore m c adj).map Prod.fst = m.map Prod.fst := by
  unfold bumpScore
  split_ifs with h
  · exact keys_alUpdate m c _
  · rfl

theorem keys_applyAdjusts : ∀ (adjs : List (String × ℚ)) (m : List (String × ℚ)),
    (applyAdjusts m adjs).map Prod.fst = m.map Prod.fst := by
  intro adjs
  induction adjs with
  | nil => intro m; rfl
  | cons x xs ih =>
      intro m
      simp only [applyAdjusts, List.foldl_cons]
      have : (applyAdjusts (bumpScore m x.1 x.2) xs).map Prod.fst
          = (bumpScore m x.1 x.2).map Prod.fst := ih _
      simpa [applyAdjusts, keys_bumpScore] using this

theorem keys_applyUserLearning (l : LearningData) (m : List (String × ℚ))
    (subject sender rawBody : String) :
    (applyUserLearning l m subject sender rawBody).map Prod.fst = m.map Prod.fst := by
  unfold applyUserLearning
  have h1 := foldl_preserve (fun sc => sc.map Prod.fst = m.map Prod.fst)
    (fun sc (p : String × List (String × ℚ)) =>
      if strContains sender p.1.toLower then applyAdjusts sc p.2 else sc)
    (by
      intro a b ha
      dsimp only
      split_ifs
      · rw [keys_applyAdjusts]; exact ha
      · exact ha)
    l.senderPatterns m rfl
  exact foldl_preserve (fun sc => sc.map Prod.fst = m.map Prod.fst)
    (fun sc (p : String × List (String × ℚ)) =>
      if strContains ((subject ++ " " ++ rawBody).toLower) p.1.toLower
        then applyAdjusts sc p.2 else sc)
    (by
      intro a b ha
      dsimp only
      split_ifs
      · rw [keys_applyAdjusts]; exact ha
      · exact ha)
    l.keywordPatterns _ h1

theorem keys_adjustedScores (e : EmailData) (ld : Option LearningData) (hour : Nat) :
    (adjustedScores e ld hour).map Prod.fst = engineCategories := by
  unfold adjustedScores
  cases ld with
  | none => simp [CATEGORIES, engineCategories]
  | some l =>
      rw [keys_applyUserLearning]
      simp [CATEGORIES, engineCategories]

theorem keys_eq_six_shape (m : List (String × ℚ))
    (h : m.map Prod.fst = engineCategories) :
    ∃ a b c d e f, m = [("urgent", a), ("important", b), ("routine", c),
      ("promotional", d), ("spam", e), ("other", f)] := by
  rcases m with _ | ⟨⟨k1, a⟩, _ | ⟨⟨k2, b⟩, _ | ⟨⟨k3, c⟩, _ | ⟨⟨k4, d⟩,
    _ | ⟨⟨k5, e⟩, _ | ⟨⟨k6, f⟩, _ | ⟨p, rest⟩⟩⟩⟩⟩⟩⟩ <;>
    simp [engineCategories] at h
  obtain ⟨h1, h2, h3, h4, h5, h6⟩ := h
  exact ⟨a, b, c, d, e, f, by rw [h1, h2, h3, h4, h5, h6]⟩

theorem adjustedScores_shape (e : EmailData) (ld : Option LearningData) (hour : Nat) :
    ∃ a b c d ee f, adjustedScores e ld hour = [("urgent", a), ("important", b),
      ("routine", c), ("promotional", d), ("spam", ee), ("other", f)] :=
  keys_eq_six_shape _ (keys_adjustedScores e ld hour)

theorem pickBest_val (xs : List (String × ℚ)) (x p : String × ℚ)
    (hp : p ∈ x :: xs) (hmax : ∀ q ∈ x :: xs, q.2 ≤ p.2) :
    (pickBest x xs).2 = p.2 :=
  le_antisymm (hmax _ (pickBest_mem xs x)) (pickBest_le xs x p hp)

theorem round3_three_tenths : round3 ((3 : ℚ)/10) = 3/10 := by
  with_unfolding_all decide

theorem mapCategory_mem (c : String) (hc : c ∈ engineCategories) :
    mapCategory c ∈ storedCategories := by
  fin_cases hc <;> decide

/-- Both branches of the final selection of `categorize_email`, expressed
against an explicit six-entry score list. -/
theorem categorizeEmail_low (e : EmailData) (ld : Option LearningData) (hour : Nat)
    (a b c d ee f : ℚ)
    (hs : adjustedScores e ld hour = [("urgent", a), ("important", b), ("routine", c),
      ("promotional", d), ("spam", ee), ("other", f)])
    (hlow : (pickBest ("urgent", a) [("important", b), ("routine", c),
      ("promotional", d), ("spam", ee), ("other", f)]).2 < 1/20) :
    (categorizeEmail e ld hour).category = "other"
    ∧ (categorizeEmail e ld hour).confidence = 3/10
    ∧ (categorizeEmail e ld hour).priority = 2 := by
  unfold categorizeEmail
  rw [hs]
  dsimp only
  rw [if_pos hlow]
  refine ⟨rfl, round3_three_tenths, ?_⟩
  decide

theorem categorizeEmail_high (e : EmailData) (ld : Option LearningData) (hour : Nat)
    (a b c d ee f : ℚ)
    (hs : adjustedScores e ld hour = [("urgent", a), ("important", b), ("routine", c),
      ("promotional", d), ("spam", ee), ("other", f)])
    (hhigh : ¬ (pickBest ("urgent", a) [("important", b), ("routine", c),
      ("promotional", d), ("spam", ee), ("other", f)]).2 < 1/20) :
    (categorizeEmail e ld hour).category = (pickBest ("urgent", a) [("important", b),
      ("routine", c), ("promotional", d), ("spam", ee), ("other", f)]).1
    ∧ (categorizeEmail e ld hour).confidence = round3 (pickBest ("urgent", a)
      [("important", b), ("routine", c), ("promotional", d), ("spam", ee), ("other", f)]).2 := by
  unfold categorizeEmail
  rw [hs]
  dsimp only
  rw [if_neg hhigh]
  exact ⟨rfl, rfl⟩

/-! ## The `other` entry keeps score zero -/

theorem other_entry_bumpScore (m : List (String × ℚ)) (c : String) (adj : ℚ)
    (hc : c ≠ "other") (h : ∀ p ∈ m, p.1 = "other" → p.2 = 0) :
    ∀ p ∈ bumpScore m c adj, p.1 = "other" → p.2 = 0 := by
  intro p hp ho
  unfold bumpScore at hp
  split_ifs at hp
  · unfold alUpdate at hp
    rcases List.mem_map.mp hp with ⟨q, hq, hqe⟩
    by_cases hqc : q.1 = c
    · rw [if_pos hqc] at hqe
      rw [← hqe] at ho
      exact absurd (ho ▸ hqc) (by simpa using hc.symm)
    · rw [if_neg hqc] at hqe
      exact h p (hqe ▸ hq) ho
  · exact h p hp ho

theorem other_entry_applyAdjusts : ∀ (adjs : List (String × ℚ)) (m : List (String × ℚ)),
    (∀ q ∈ adjs, q.1 ≠ "other") → (∀ p ∈ m, p.1 = "other" → p.2 = 0) →
    ∀ p ∈ applyAdjusts m adjs, p.1 = "other" → p.2 = 0 := by
  intro adjs
  induction adjs with
  | nil => intro m _ h; exact h
  | cons x xs ih =>
      intro m hadj h
      simp only [applyAdjusts, List.foldl_cons]
      exact ih _ (fun q hq => hadj q (List.mem_cons_of_mem _ hq))
        (other_entry_bumpScore m x.1 x.2 (hadj x (List.mem_cons_self _ _)) h)

theorem other_entry_applyUserLearning (l : LearningData) (m : List (String × ℚ))
    (subject sender rawBody : String)
    (hl1 : ∀ p ∈ l.senderPatterns, ∀ q ∈ p.2, q.1 ≠ "other")
    (hl2 : ∀ p ∈ l.keywordPatterns, ∀ q ∈ p.2, q.1 ≠ "other")
    (h : ∀ p ∈ m, p.1 = "other" → p.2 = 0) :
    ∀ p ∈ applyUserLearning l m subject sender rawBody, p.1 = "other" → p.2 = 0 := by
  unfold applyUserLearning
  have step1 : ∀ (pats : List (String × List (String × ℚ)))
      (hpats : ∀ p ∈ pats, ∀ q ∈ p.2, q.1 ≠ "other") (txt : String)
      (m0 : List (String × ℚ)) (hm0 : ∀ p ∈ m0, p.1 = "other" → p.2 = 0),
      ∀ p ∈ pats.foldl (fun sc q => if strContains txt q.1.toLower
          then applyAdjusts sc q.2 else sc) m0, p.1 = "other" → p.2 = 0 := by
    intro pats
    induction pats with
    | nil => intro _ _ m0 hm0; exact hm0
    | cons x xs ih =>
        intro hpats txt m0 hm0
        simp only [List.foldl_cons]
        refine ih (fun p hp => hpats p (List.mem_cons_of_mem _ hp)) txt _ ?_
        dsimp only
        split_ifs
        · exact other_entry_applyAdjusts x.2 m0 (hpats x (List.mem_cons_self _ _)) hm0
        · exact hm0
  exact step1 l.keywordPatterns hl2 _ _ (step1 l.senderPatterns hl1 _ m h)

theorem calcCategoryScore_other_zero (subject sender body : String) (hour : Nat) :
    calcCategoryScore "other"
      { priority := 2, description := "General or unclassified emails",
        keywords := [], senderPatterns := [], subjectPatterns := [] }
      subject sender body hour = 0 := by
  unfold calcCategoryScore calcKeywordScore calcSenderScore calcPatternScore calcTimeScore
  simp

theorem other_entry_adjustedScores (e : EmailData) (ld : Option LearningData)
    (hour : Nat) (hld : ldNoOther ld = true) :
    ∀ p ∈ adjustedScores e ld hour, p.1 = "other" → p.2 = 0 := by
  have hbase : ∀ p ∈ CATEGORIES.map (fun p =>
      (p.1, calcCategoryScore p.1 p.2 e.subject.toLower e.sender.toLower e.body.toLower hour)),
      p.1 = "other" → p.2 = 0 := by
    intro p hp ho
    simp only [CATEGORIES, List.map_cons, List.map_nil, List.mem_cons,
      List.not_mem_nil, or_false] at hp
    rcases hp with rfl | rfl | rfl | rfl | rfl | rfl
    · simp at ho
    · simp at ho
    · simp at ho
    · simp at ho
    · simp at ho
    · simpa using calcCategoryScore_other_zero e.subject.toLower e.sender.toLower
        e.body.toLower hour
  unfold adjustedScores
  cases ld with
  | none => exact hbase
  | some l =>
      unfold ldNoOther at hld
      rw [Bool.and_eq_true] at hld
      refine other_entry_applyUserLearning l _ _ _ _ ?_ ?_ hbase
      · intro p hp q hq
        have := List.all_eq_true.mp hld.1 p hp
        have := List.all_eq_true.mp this q hq
        simpa using this
      · intro p hp q hq
        have := List.all_eq_true.mp hld.2 p hp
        have := List.all_eq_true.mp this q hq
        simpa using this

theorem catPriority_urgent : catPriority "urgent" = 5 := rfl

theorem catPriority_important : catPriority "important" = 4 := rfl

theorem catPriority_routine : catPriority "routine" = 3 := rfl

theorem catPriority_promotional : catPriority "promotional" = 2 := rfl

theorem catPriority_spam : catPriority "spam" = 1 := rfl

theorem catPriority_other : catPriority "other" = 2 := rfl

set_option maxHeartbeats 2000000 in
/-- Tie-break analysis of the first-maximum fold over the six scores, with
the `other` score fixed at its invariant value 0: whenever the overall
maximum `v` is at least the 0.05 floor, every category whose score equals
`v` has static priority at most that of the selected category. -/
theorem pickBest6_tie (a b c d ee v : ℚ) (hv : 1/20 ≤ v)
    (ha : a ≤ v) (hb : b ≤ v) (hc : c ≤ v) (hd : d ≤ v) (he : ee ≤ v)
    (hpbv : (pickBest ("urgent", a) [("important", b), ("routine", c),
      ("promotional", d), ("spam", ee), ("other", 0)]).2 = v) :
    ∀ (cs : String) (w : ℚ),
      (cs, w) ∈ [("urgent", a), ("important", b), ("routine", c),
        ("promotional", d), ("spam", ee), ("other", (0:ℚ))] →
      w = v →
      catPriority cs ≤ catPriority (pickBest ("urgent", a) [("important", b),
        ("routine", c), ("promotional", d), ("spam", ee), ("other", 0)]).1 := by
  simp only [pickBest] at hpbv ⊢
  split_ifs at hpbv ⊢ <;>
    (intro cs w hmem hw
     dsimp only at *
     simp only [List.mem_cons, List.not_mem_nil, or_false, Prod.mk.injEq] at hmem
     rcases hmem with ⟨rfl, rfl⟩ | ⟨rfl, rfl⟩ | ⟨rfl, rfl⟩ | ⟨rfl, rfl⟩ |
       ⟨rfl, rfl⟩ | ⟨rfl, rfl⟩ <;>
     simp only [catPriority_urgent, catPriority_important, catPriority_routine,
       catPriority_promotional, catPriority_spam, catPriority_other] <;>
     first
       | omega
       | linarith)

/-- C3 counterexample: at business hour 10 the empty email scores a two-way
tie at the maximum (urgent = important = 0.02), yet `categorize_email`
returns `other` — whose static priority 2 is smaller than the tied
categories' 4 and 5 — because the maximum sits below the 0.05 fallback
floor.  The claim as stated is therefore false. -/
theorem c3_counterexample :
    adjustedScores emailEmpty none 10
      = [("urgent", 1/50), ("important", 1/50), ("routine", 0),
         ("promotional", 0), ("spam", 0), ("other", 0)]
    ∧ (categorizeEmail emailEmpty none 10).category = "other"
    ∧ catPriority "other" < catPriority "important" := by
  refine ⟨?_, ?_, by decide⟩ <;>
    set_option maxRecDepth 40000 in with_unfolding_all decide

/-- C3 (amended): whenever a category's combined score attains the overall
maximum and that maximum is at least the low-confidence floor 0.05, the
returned category also attains the maximum and its static priority is at
least the tied category's — ties resolve to the higher static priority.
(Below the floor the fallback `other` is returned instead; learning data
never adjusts `other`, as is the case for everything `_load_learning_data`
produces.) -/
theorem c3_amended : ∀ (e : EmailData) (ld : Option LearningData) (hour : Nat),
    ldNoOther ld = true →
    ∀ (cs : String) (v : ℚ), (cs, v) ∈ adjustedScores e ld hour →
      (∀ p ∈ adjustedScores e ld hour, p.2 ≤ v) → 1/20 ≤ v →
      ((categorizeEmail e ld hour).category, v) ∈ adjustedScores e ld hour
      ∧ catPriority cs ≤ catPriority (categorizeEmail e ld hour).category := by
  intro e ld hour hld cs v hmem hmax hv
  obtain ⟨a, b, c, d, ee, f, hs⟩ := adjustedScores_shape e ld hour
  have hf : f = 0 := by
    have := other_entry_adjustedScores e ld hour hld ("other", f)
      (by rw [hs]; simp) rfl
    simpa using this
  subst hf
  rw [hs] at hmem hmax
  have hpbv : (pickBest ("urgent", a) [("important", b), ("routine", c),
      ("promotional", d), ("spam", ee), ("other", 0)]).2 = v :=
    pickBest_val _ _ (cs, v) hmem hmax
  have hhigh : ¬ (pickBest ("urgent", a) [("important", b), ("routine", c),
      ("promotional", d), ("spam", ee), ("other", 0)]).2 < 1/20 := by
    rw [hpbv]; exact not_lt.mpr hv
  obtain ⟨hcat, _⟩ := categorizeEmail_high e ld hour a b c d ee 0 hs hhigh
  constructor
  · rw [hcat, hs, ← hpbv, Prod.mk.eta]
    exact pickBest_mem _ _
  · rw [hcat]
    have ha := hmax ("urgent", a) (by simp)
    have hb := hmax ("important", b) (by simp)
    have hc := hmax ("routine", c) (by simp)
    have hd := hmax ("promotional", d) (by simp)
    have he := hmax ("spam", ee) (by simp)
    exact pickBest6_tie a b c d ee v hv ha hb hc hd he hpbv cs v hmem rfl

/-- Witness for `c3_amended`: a learning profile boosting urgent and
important equally produces a genuine two-way tie at 0.1 ≥ 0.05; the engine
returns `urgent`, whose priority 5 dominates `important`'s 4. -/
theorem c3_amended_witness :
    ldNoOther (some ldTie) = true
    ∧ ("important", 1/10) ∈ adjustedScores emailEmpty (some ldTie) 3
    ∧ (∀ p ∈ adjustedScores emailEmpty (some ldTie) 3, p.2 ≤ 1/10)
    ∧ (1 : ℚ)/20 ≤ 1/10
    ∧ (((categorizeEmail emailEmpty (some ldTie) 3).category, (1 : ℚ)/10)
        ∈ adjustedScores emailEmpty (some ldTie) 3
      ∧ catPriority "important"
        ≤ catPriority (categorizeEmail emailEmpty (some ldTie) 3).category) :=
  ⟨by decide,
   by set_option maxRecDepth 40000 in with_unfolding_all decide,
   by set_option maxRecDepth 40000 in with_unfolding_all decide,
   by norm_num,
   c3_amended emailEmpty (some ldTie) 3 (by decide) "important" (1/10)
     (by set_option maxRecDepth 40000 in with_unfolding_all decide)
     (by set_option maxRecDepth 40000 in with_unfolding_all decide)
     (by norm_num)⟩

/-- C7 counterexample: for the email with body `urgent` at hour 3 the
maximum combined score is 2/15 ≥ 0.05, attained by `urgent`; the engine
returns `urgent` but with confidence `round(2/15, 3) = 0.133 ≠ 2/15` — the
returned confidence is the maximum score rounded to three decimals, not the
score itself, so the claim as stated is false. -/
theorem c7_counterexample :
    ("urgent", (2 : ℚ)/15) ∈ adjustedScores emailUrgentBody none 3
    ∧ (∀ p ∈ adjustedScores emailUrgentBody none 3, p.2 ≤ 2/15)
    ∧ (1 : ℚ)/20 ≤ 2/15
    ∧ (categorizeEmail emailUrgentBody none 3).category = "urgent"
    ∧ (categorizeEmail emailUrgentBody none 3).confidence = 133/1000
    ∧ ((133 : ℚ)/1000) ≠ 2/15 := by
  refine ⟨?_, ?_, by norm_num, ?_, ?_, by norm_num⟩ <;>
    set_option maxRecDepth 40000 in with_unfolding_all decide

/-- C7 (amended): when the maximum combined score `v` is below 0.05 the
result is the fallback `other` with confidence exactly 0.3 (and priority
2); otherwise the returned category attains the maximum and the returned
confidence is `v` rounded to three decimal places. -/
theorem c7_amended : ∀ (e : EmailData) (ld : Option LearningData) (hour : Nat)
    (cs : String) (v : ℚ),
    (cs, v) ∈ adjustedScores e ld hour →
    (∀ p ∈ adjustedScores e ld hour, p.2 ≤ v) →
    (v < 1/20 →
      (categorizeEmail e ld hour).category = "other"
      ∧ (categorizeEmail e ld hour).confidence = 3/10
      ∧ (categorizeEmail e ld hour).priority = 2)
    ∧ (1/20 ≤ v →
      (categorizeEmail e ld hour).confidence = round3 v
      ∧ ((categorizeEmail e ld hour).category, v) ∈ adjustedScores e ld hour) := by
  intro e ld hour cs v hmem hmax
  obtain ⟨a, b, c, d, ee, f, hs⟩ := adjustedScores_shape e ld hour
  rw [hs] at hmem hmax
  have hpbv : (pickBest ("urgent", a) [("important", b), ("routine", c),
      ("promotional", d), ("spam", ee), ("other", f)]).2 = v :=
    pickBest_val _ _ (cs, v) hmem hmax
  constructor
  · intro hlow
    exact categorizeEmail_low e ld hour a b c d ee f hs (by rw [hpbv]; exact hlow)
  · intro hv
    have hhigh : ¬ (pickBest ("urgent", a) [("important", b), ("routine", c),
        ("promotional", d), ("spam", ee), ("other", f)]).2 < 1/20 := by
      rw [hpbv]; exact not_lt.mpr hv
    obtain ⟨hcat, hconf⟩ := categorizeEmail_high e ld hour a b c d ee f hs hhigh
    refine ⟨by rw [hconf, hpbv], ?_⟩
    rw [hcat, hs, ← hpbv, Prod.mk.eta]
    exact pickBest_mem _ _

/-- Witness for `c7_amended`: the fallback branch at the empty email (its
maximum score 0.01, from the off-hours spam boost, sits below the floor)
and the selection branch at the body-`urgent` email whose maximum is
2/15. -/
theorem c7_amended_witness :
    (("spam", (1 : ℚ)/100) ∈ adjustedScores emailEmpty none 3
      ∧ (∀ p ∈ adjustedScores emailEmpty none 3, p.2 ≤ 1/100)
      ∧ ((1 : ℚ)/100 < 1/20)
      ∧ ((categorizeEmail emailEmpty none 3).category = "other"
        ∧ (categorizeEmail emailEmpty none 3).confidence = 3/10
        ∧ (categorizeEmail emailEmpty none 3).priority = 2))
    ∧ (("urgent", (2 : ℚ)/15) ∈ adjustedScores emailUrgentBody none 3
      ∧ (∀ p ∈ adjustedScores emailUrgentBody none 3, p.2 ≤ 2/15)
      ∧ ((1 : ℚ)/20 ≤ 2/15)
      ∧ ((categorizeEmail emailUrgentBody none 3).confidence = round3 (2/15)
        ∧ ((categorizeEmail emailUrgentBody none 3).category, (2 : ℚ)/15)
            ∈ adjustedScores emailUrgentBody none 3)) :=
  ⟨⟨by set_option maxRecDepth 40000 in with_unfolding_all decide,
    by set_option maxRecDepth 40000 in with_unfolding_all decide,
    by norm_num,
    (c7_amended emailEmpty none 3 "spam" (1/100)
      (by set_option maxRecDepth 40000 in with_unfolding_all decide)
      (by set_option maxRecDepth 40000 in with_unfolding_all decide)).1 (by norm_num)⟩,
   ⟨by set_option maxRecDepth 40000 in with_unfolding_all decide,
    by set_option maxRecDepth 40000 in with_unfolding_all decide,
    by norm_num,
    (c7_amended emailUrgentBody none 3 "urgent" (2/15)
      (by set_option maxRecDepth 40000 in with_unfolding_all decide)
      (by set_option maxRecDepth 40000 in with_unfolding_all decide)).2 (by norm_num)⟩⟩

/-- C9 counterexample: one unchanged email against unchanged (empty)
learning data categorized at wall-clock hour 10 and again at hour 3 gives
different results — the urgent score receives the business-hours boost only
in the first call (confidence 0.153 versus 0.133) — so two calls on
unmodified inputs are not in general identical: the result also depends on
the hidden clock read by `_calculate_time_score`. -/
theorem c9_counterexample :
    (categorizeEmail emailUrgentBody none 10).confidence = 153/1000
    ∧ (categorizeEmail emailUrgentBody none 3).confidence = 133/1000
    ∧ categorizeEmail emailUrgentBody none 10 ≠ categorizeEmail emailUrgentBody none 3 := by
  have h1 : (categorizeEmail emailUrgentBody none 10).confidence = 153/1000 := by
    set_option maxRecDepth 40000 in with_unfolding_all decide
  have h2 : (categorizeEmail emailUrgentBody none 3).confidence = 133/1000 := by
    set_option maxRecDepth 40000 in with_unfolding_all decide
  refine ⟨h1, h2, fun heq => ?_⟩
  have hc := congrArg CatResult.confidence heq
  rw [h1, h2] at hc
  norm_num at hc

/-- C9 (amended): `categorize_email` is a pure function of the email data,
the learning data and the clock hour; two calls whose hours agree on the
business-hours predicate (9-17) and the off-hours predicate (<8 or >20)
yield identical results — in particular two calls during the same hour are
identical. -/
theorem c9_deterministic : ∀ (e : EmailData) (ld : Option LearningData) (h1 h2 : Nat),
    ((9 ≤ h1 ∧ h1 ≤ 17) ↔ (9 ≤ h2 ∧ h2 ≤ 17)) →
    ((h1 < 8 ∨ h1 > 20) ↔ (h2 < 8 ∨ h2 > 20)) →
    categorizeEmail e ld h1 = categorizeEmail e ld h2 := by
  intro e ld h1 h2 hbiz hoff
  have ht : ∀ c, calcTimeScore c h1 = calcTimeScore c h2 := by
    intro c
    unfold calcTimeScore
    by_cases hA : 9 ≤ h1 ∧ h1 ≤ 17
    · have hA2 := hbiz.mp hA
      by_cases hB : h1 < 8 ∨ h1 > 20
      · have hB2 := hoff.mp hB
        simp [hA, hA2, hB, hB2]
      · have hB2 : ¬(h2 < 8 ∨ h2 > 20) := fun hh => hB (hoff.mpr hh)
        simp [hA, hA2, hB, hB2]
    · have hA2 : ¬(9 ≤ h2 ∧ h2 ≤ 17) := fun hh => hA (hbiz.mpr hh)
      by_cases hB : h1 < 8 ∨ h1 > 20
      · have hB2 := hoff.mp hB
        simp [hA, hA2, hB, hB2]
      · have hB2 : ¬(h2 < 8 ∨ h2 > 20) := fun hh => hB (hoff.mpr hh)
        simp [hA, hA2, hB, hB2]
  have hcs : ∀ (cat : String) (cfg : CatConfig) (s sn b : String),
      calcCategoryScore cat cfg s sn b h1 = calcCategoryScore cat cfg s sn b h2 := by
    intro cat cfg s sn b
    unfold calcCategoryScore
    rw [ht]
  have hmapfn : (fun (p : String × CatConfig) =>
        (p.1, calcCategoryScore p.1 p.2 e.subject.toLower e.sender.toLower
          e.body.toLower h1))
      = (fun p => (p.1, calcCategoryScore p.1 p.2 e.subject.toLower
          e.sender.toLower e.body.toLower h2)) :=
    funext fun p => by rw [hcs]
  have hsc : adjustedScores e ld h1 = adjustedScores e ld h2 := by
    cases ld with
    | none => unfold adjustedScores; dsimp only; rw [hmapfn]
    | some l => unfold adjustedScores; dsimp only; rw [hmapfn]
  unfold categorizeEmail
  rw [hsc]

/-- Witness for `c9_deterministic` at two distinct business hours 10 and
11: the full results agree. -/
theorem c9_deterministic_witness :
    ((9 ≤ 10 ∧ 10 ≤ 17) ↔ (9 ≤ 11 ∧ 11 ≤ 17))
    ∧ ((10 < 8 ∨ 10 > 20) ↔ (11 < 8 ∨ 11 > 20))
    ∧ categorizeEmail emailUrgentBody none 10 = categorizeEmail emailUrgentBody none 11 :=
  ⟨by decide, by decide,
   c9_deterministic emailUrgentBody none 10 11 (by decide) (by decide)⟩

/-- C4 counterexample: categorizing `emailPromoSender` yields the engine
category `promotional`, which `categorize_and_update_email` maps to the
model category `promotion` before saving — a stored category outside the
fixed enumeration of the claim, so the claim as stated is false. -/
theorem c4_counterexample :
    (categorizeEmail emailPromoSender none 3).category = "promotional"
    ∧ ((categorizeAndUpdateEmail none 3 storedPromo).1).category = "promotion"
    ∧ "promotion" ∉ engineCategories := by
  refine ⟨?_, ?_, by decide⟩ <;>
    set_option maxRecDepth 40000 in with_unfolding_all decide

/-- C4 (amended): for every input email categorized against learning data
with non-negative adjustments (as `_load_learning_data` always produces),
the returned confidence lies in [0,1] and the returned category lies in the
six-element engine enumeration; consequently every stored category lies in
the engine enumeration extended with `promotion` — the model value that
`categorize_and_update_email` writes for `promotional` results, the
sync/recategorize paths storing the engine category verbatim. -/
theorem c4_amended : ∀ (e : EmailData) (ld : Option LearningData) (hour : Nat),
    ldNonneg ld = true →
    (0 ≤ (categorizeEmail e ld hour).confidence
      ∧ (categorizeEmail e ld hour).confidence ≤ 1)
    ∧ (categorizeEmail e ld hour).category ∈ engineCategories
    ∧ mapCategory (categorizeEmail e ld hour).category ∈ storedCategories := by
  intro e ld hour hld
  obtain ⟨a, b, c, d, ee, f, hs⟩ := adjustedScores_shape e ld hour
  have hbounds := bounded_adjustedScores e ld hour hld
  rw [hs] at hbounds
  have hpbmem := pickBest_mem [("important", b), ("routine", c),
    ("promotional", d), ("spam", ee), ("other", f)] ("urgent", a)
  have hpb := hbounds _ hpbmem
  by_cases hlow : (pickBest ("urgent", a) [("important", b), ("routine", c),
      ("promotional", d), ("spam", ee), ("other", f)]).2 < 1/20
  · obtain ⟨hcat, hconf, _⟩ := categorizeEmail_low e ld hour a b c d ee f hs hlow
    rw [hcat, hconf]
    refine ⟨by norm_num, by decide, by decide⟩
  · obtain ⟨hcat, hconf⟩ := categorizeEmail_high e ld hour a b c d ee f hs hlow
    rw [hcat, hconf]
    have hmemcat : (pickBest ("urgent", a) [("important", b), ("routine", c),
        ("promotional", d), ("spam", ee), ("other", f)]).1 ∈ engineCategories := by
      have := List.mem_map_of_mem Prod.fst hpbmem
      simpa [engineCategories] using this
    exact ⟨round3_bounds _ hpb.1 hpb.2, hmemcat, mapCategory_mem _ hmemcat⟩

/-- Witness for `c4_amended` at `emailPromoSender` with empty learning
data. -/
theorem c4_amended_witness :
    ldNonneg none = true
    ∧ ((0 ≤ (categorizeEmail emailPromoSender none 3).confidence
        ∧ (categorizeEmail emailPromoSender none 3).confidence ≤ 1)
      ∧ (categorizeEmail emailPromoSender none 3).category ∈ engineCategories
      ∧ mapCategory (categorizeEmail emailPromoSender none 3).category ∈ storedCategories) :=
  ⟨rfl, c4_amended emailPromoSender none 3 rfl⟩

/-- C8: for every account sync, when force-full is false and the account
has a prior last-sync timestamp the sync window starts at last-sync minus
1 hour, and when force-full is true (or there is no prior sync) the window
starts at now minus 30 days (2592000 s), regardless of last-sync. -/
theorem c8_sync_window :
    (∀ t now : Int, computeSyncSince false (some t) now = t - 3600)
    ∧ (∀ (lastSync : Option Int) (now : Int),
        computeSyncSince true lastSync now = now - 30 * 86400)
    ∧ (∀ now : Int, computeSyncSince false none now = now - 30 * 86400) := by
  refine ⟨fun t now => rfl, fun ls now => ?_, fun now => by norm_num [computeSyncSince]⟩
  cases ls <;> norm_num [computeSyncSince]

/-- C2: the cross-account learning pass can never store anything.  Its body
always raises before any write — `email.sender` does not exist on
`EmailMessage`, and `categorization_rules` does not exist on
`UserPreference` — the `try/except` swallows the exception, and the user's
stored preferences are returned unchanged.  In particular no normalized
`count/total` adjustment capped at 0.2 is ever stored by this pass. -/
theorem c2_learning_pass_never_stores :
    ∀ (now : Int) (msgs : List StoredEmail) (prefs : UserPreference),
      applyCrossAccountLearning now msgs prefs = prefs := by
  intro now msgs prefs
  have h : ∀ x : Except String Unit,
      (match (match x with
        | Except.error e => (Except.error e : Except String UserPreference)
        | Except.ok _ =>
            match prefsCategorizationRulesAttr prefs with
            | Except.error e => Except.error e
            | Except.ok _ =>
                Except.error "unreachable: the preceding attribute access always raises") with
       | Except.ok p => p
       | Except.error _ => prefs) = prefs := by
    intro x
    cases x <;> rfl
  exact h _

/-- C1: `recategorize_account_emails`, `categorize_and_update_email` and
`bulk_categorize_pending_emails` all overwrite a stored message whose
`manual_override` flag is set: at the concrete row `storedManual`
(manual_override true, user-pinned category `other`, body `urgent`) every
path rewrites the category — and the confidence, and (for the
recategorization path) the priority — contradicting the spec's invariant;
no code path reads `manual_override`. -/
theorem c1_manual_override_overwritten :
    storedManual.manualOverride = true
    ∧ storedManual.category = "other"
    ∧ (recategorizeEmailStep none 3 storedManual).category = "urgent"
    ∧ (recategorizeEmailStep none 3 storedManual).priority = PriorityVal.intVal 5
    ∧ (recategorizeEmailStep none 3 storedManual).aiConfidence = 133 / 1000
    ∧ ((recategorizeAccountEmails none 3 [storedManual] none).1.map
        (fun m => m.category)) = ["urgent"]
    ∧ ((categorizeAndUpdateEmail none 3 storedManual).1).category = "urgent"
    ∧ ((bulkCategorizePendingEmails none 3 [storedManual] 50).savedEmails.map
        (fun m => m.category)) = ["urgent"] := by
  set_option maxRecDepth 40000 in with_unfolding_all decide

/-- C6 counterexample: a request whose first attempt raises a non-HTTP
exception — an error with no transient HTTP status — does not propagate
immediately: the code sleeps once (1 s) and retries, succeeding on the
second attempt, so the claim that every non-transient error propagates
immediately without retry is false. -/
theorem c6_counterexample :
    reqExcOnce 0 = ApiOutcome.otherExc "ConnectionError"
    ∧ (∀ s, reqExcOnce 0 ≠ ApiOutcome.httpError s)
    ∧ executeWithRetry (some reqExcOnce) 3 = (Except.ok (some 0), [1]) := by
  refine ⟨rfl, fun s h => by simp [reqExcOnce] at h, ?_⟩
  with_unfolding_all rfl

/-- C6 (amended): with 3 attempts, an HTTP failure whose status is
non-transient propagates immediately with no backoff sleep; a request
failing with HTTP 429 twice succeeds on the third attempt after strictly
increasing doubling delays of 1 s and 2 s; and a non-HTTP exception is
likewise retried with the same backoff rather than propagating
immediately. -/
theorem c6_retry_amended :
    (∀ (α : Type) (f : Nat → ApiOutcome α) (s : Option Int),
        transientStatus s = false → f 0 = ApiOutcome.httpError s →
        executeWithRetry (some f) 3 = (Except.error (ApiFailure.http s), []))
    ∧ (∀ (α : Type) (f : Nat → ApiOutcome α) (v : α),
        f 0 = ApiOutcome.httpError (some 429) → f 1 = ApiOutcome.httpError (some 429) →
        f 2 = ApiOutcome.ok v →
        executeWithRetry (some f) 3 = (Except.ok (some v), [1, 2]) ∧ (1 : ℚ) < 2)
    ∧ (∀ (α : Type) (f : Nat → ApiOutcome α) (m : String),
        f 0 = ApiOutcome.otherExc m → f 1 = ApiOutcome.otherExc m →
        f 2 = ApiOutcome.otherExc m →
        executeWithRetry (some f) 3 = (Except.error (ApiFailure.exc m), [1, 2])) := by
  refine ⟨?_, ?_, ?_⟩
  · intro α f s hs h0
    simp [executeWithRetry, runRetry, h0, hs]
  · intro α f v h0 h1 h2
    refine ⟨?_, by norm_num⟩
    simp [executeWithRetry, runRetry, h0, h1, h2, transientStatus]
  · intro α f m h0 h1 h2
    simp [executeWithRetry, runRetry, h0, h1, h2]

/-- Witness for `c6_retry_amended` at the concrete requests `req404`,
`req429Twice` and a constant connection error. -/
theorem c6_retry_amended_witness :
    (transientStatus (some 404) = false
      ∧ executeWithRetry (some req404) 3 = (Except.error (ApiFailure.http (some 404)), []))
    ∧ (executeWithRetry (some req429Twice) 3 = (Except.ok (some 7), [1, 2]) ∧ (1 : ℚ) < 2)
    ∧ executeWithRetry (some (fun _ => ApiOutcome.otherExc "boom" : Nat → ApiOutcome Nat)) 3
        = (Except.error (ApiFailure.exc "boom"), [1, 2]) :=
  ⟨⟨by decide, c6_retry_amended.1 Nat req404 (some 404) (by decide) rfl⟩,
   c6_retry_amended.2.1 Nat req429Twice 7 rfl rfl rfl,
   c6_retry_amended.2.2 Nat (fun _ => ApiOutcome.otherExc "boom") "boom" rfl rfl rfl⟩

/-! ## Label-triage helper lemmas -/

theorem actionFold_success (applyOk : Option String → String → Bool)
    (category : String) (eid : Option String) :
    ∀ (acts : List String) (er : EmailResult) (g : List (String × List (Option String))),
    ((acts.foldl (triageActionStep applyOk category eid) (er, g)).1).success = er.success := by
  intro acts
  induction acts with
  | nil => intro er g; rfl
  | cons a as ih =>
      intro er g
      simp only [List.foldl_cons, triageActionStep]
      split_ifs <;> exact ih _ _

theorem actionFold_groups (applyOk : Option String → String → Bool)
    (c : String) (eid : Option String) (er : EmailResult)
    (g : List (String × List (Option String))) :
    ((gmailActionsOf c).foldl (triageActionStep applyOk c eid) (er, g)).2
      = if (gmailActionsOf c).contains "apply_label" then setdefaultAppend g c eid else g := by
  by_cases h1 : c = "urgent"
  · subst h1; rfl
  by_cases h2 : c = "important"
  · subst h2; rfl
  by_cases h3 : c = "routine"
  · subst h3; rfl
  by_cases h4 : c = "promotional"
  · subst h4; rfl
  by_cases h5 : c = "spam"
  · subst h5; rfl
  have he : gmailActionsOf c = [] := by
    unfold gmailActionsOf CATEGORY_ACTIONS
    simp [List.find?, Ne.symm h1, Ne.symm h2, Ne.symm h3, Ne.symm h4, Ne.symm h5]
  rw [he]
  rfl

theorem processOneEmail_spec (u : Bool) (applyOk : Option String → String → Bool)
    (st : TriageState) (e : EmailInput) (cz : CategorizationInput) :
    (processOneEmail u applyOk st e cz).processedCount = st.processedCount + 1
    ∧ (processOneEmail u applyOk st e cz).errors
        = st.errors ++ (match statsIncr st.statistics (cz.category.getD "routine") with
            | Except.ok _ => []
            | Except.error m => [(e.id, m)])
    ∧ (processOneEmail u applyOk st e cz).statistics
        = (match statsIncr st.statistics (cz.category.getD "routine") with
            | Except.ok s2 => s2
            | Except.error _ => st.statistics)
    ∧ (processOneEmail u applyOk st e cz).emailsByCategory
        = (if u && (gmailActionsOf (cz.category.getD "routine")).contains "apply_label"
           then setdefaultAppend st.emailsByCategory (cz.category.getD "routine") e.id
           else st.emailsByCategory) := by
  cases u with
  | true =>
      cases hsi : statsIncr st.statistics (cz.category.getD "routine") <;>
        simp [processOneEmail, hsi, actionFold_success, actionFold_groups]
  | false =>
      simp only [processOneEmail, processSingleEmail]
      cases hsi : statsIncr st.statistics (cz.category.getD "routine") <;>
        simp [hsi]

theorem triage_fold_processed (u : Bool) (applyOk : Option String → String → Bool) :
    ∀ (l : List (EmailInput × CategorizationInput)) (st : TriageState),
    (l.foldl (fun st p => processOneEmail u applyOk st p.1 p.2) st).processedCount
      = st.processedCount + l.length := by
  intro l
  induction l with
  | nil => intro st; simp
  | cons x xs ih =>
      intro st
      simp only [List.foldl_cons, List.length_cons]
      rw [ih, (processOneEmail_spec u applyOk st x.1 x.2).1]
      omega

theorem triage_fold_errors (u : Bool) (applyOk : Option String → String → Bool) :
    ∀ (l : List (EmailInput × CategorizationInput)) (st : TriageState),
    (l.foldl (fun st p => processOneEmail u applyOk st p.1 p.2) st).errors
      = st.errors ++ l.filterMap (fun p =>
          if p.2.category.getD "routine" = "urgent" ∨ p.2.category.getD "routine" = "important"
            ∨ p.2.category.getD "routine" = "routine" ∨ p.2.category.getD "routine" = "promotional"
            ∨ p.2.category.getD "routine" = "spam" then none
          else some (p.1.id, keyErrorStr (p.2.category.getD "routine"))) := by
  intro l
  induction l with
  | nil => intro st; simp
  | cons x xs ih =>
      intro st
      simp only [List.foldl_cons, List.filterMap_cons]
      rw [ih, (processOneEmail_spec u applyOk st x.1 x.2).2.1]
      by_cases h1 : x.2.category.getD "routine" = "urgent"
      · simp [statsIncr, h1]
      by_cases h2 : x.2.category.getD "routine" = "important"
      · simp [statsIncr, h1, h2]
      by_cases h3 : x.2.category.getD "routine" = "routine"
      · simp [statsIncr, h1, h2, h3]
      by_cases h4 : x.2.category.getD "routine" = "promotional"
      · simp [statsIncr, h1, h2, h3, h4]
      by_cases h5 : x.2.category.getD "routine" = "spam"
      · simp [statsIncr, h1, h2, h3, h4, h5]
      simp [statsIncr, h1, h2, h3, h4, h5]

theorem triage_fold_stats (u : Bool) (applyOk : Option String → String → Bool) :
    ∀ (l : List (EmailInput × CategorizationInput)) (st : TriageState),
    ((l.foldl (fun st p => processOneEmail u applyOk st p.1 p.2) st).statistics.urgent
        = st.statistics.urgent
          + (l.filter (fun p => p.2.category.getD "routine" = "urgent")).length)
    ∧ ((l.foldl (fun st p => processOneEmail u applyOk st p.1 p.2) st).statistics.important
        = st.statistics.important
          + (l.filter (fun p => p.2.category.getD "routine" = "important")).length)
    ∧ ((l.foldl (fun st p => processOneEmail u applyOk st p.1 p.2) st).statistics.routine
        = st.statistics.routine
          + (l.filter (fun p => p.2.category.getD "routine" = "routine")).length)
    ∧ ((l.foldl (fun st p => processOneEmail u applyOk st p.1 p.2) st).statistics.promotional
        = st.statistics.promotional
          + (l.filter (fun p => p.2.category.getD "routine" = "promotional")).length)
    ∧ ((l.foldl (fun st p => processOneEmail u applyOk st p.1 p.2) st).statistics.spam
        = st.statistics.spam
          + (l.filter (fun p => p.2.category.getD "routine" = "spam")).length) := by
  intro l
  induction l with
  | nil => intro st; simp
  | cons x xs ih =>
      intro st
      obtain ⟨ihu, ihi, ihr, ihp, ihs⟩ := ih (processOneEmail u applyOk st x.1 x.2)
      have ss := (processOneEmail_spec u applyOk st x.1 x.2).2.2.1
      simp only [List.foldl_cons, List.filter_cons]
      by_cases h1 : x.2.category.getD "routine" = "urgent"
      · simp only [statsIncr, h1, if_pos] at ss
        refine ⟨?_, ?_, ?_, ?_, ?_⟩ <;>
          simp [h1, ihu, ihi, ihr, ihp, ihs, ss] <;> omega
      by_cases h2 : x.2.category.getD "routine" = "important"
      · simp only [statsIncr, h1, h2] at ss
        simp only [if_neg, if_pos, reduceIte] at ss
        refine ⟨?_, ?_, ?_, ?_, ?_⟩ <;>
          simp [h1, h2, ihu, ihi, ihr, ihp, ihs, ss] <;> omega
      by_cases h3 : x.2.category.getD "routine" = "routine"
      · simp only [statsIncr, h1, h2, h3, reduceIte] at ss
        refine ⟨?_, ?_, ?_, ?_, ?_⟩ <;>
          simp [h1, h2, h3, ihu, ihi, ihr, ihp, ihs, ss] <;> omega
      by_cases h4 : x.2.category.getD "routine" = "promotional"
      · simp only [statsIncr, h1, h2, h3, h4, reduceIte] at ss
        refine ⟨?_, ?_, ?_, ?_, ?_⟩ <;>
          simp [h1, h2, h3, h4, ihu, ihi, ihr, ihp, ihs, ss] <;> omega
      by_cases h5 : x.2.category.getD "routine" = "spam"
      · simp only [statsIncr, h1, h2, h3, h4, h5, reduceIte] at ss
        refine ⟨?_, ?_, ?_, ?_, ?_⟩ <;>
          simp [h1, h2, h3, h4, h5, ihu, ihi, ihr, ihp, ihs, ss] <;> omega
      · simp only [statsIncr, h1, h2, h3, h4, h5, reduceIte] at ss
        refine ⟨?_, ?_, ?_, ?_, ?_⟩ <;>
          simp [h1, h2, h3, h4, h5, ihu, ihi, ihr, ihp, ihs, ss] <;> omega

theorem triage_fold_groups (u : Bool) (applyOk : Option String → String → Bool) :
    ∀ (l : List (EmailInput × CategorizationInput)) (st : TriageState),
    (l.foldl (fun st p => processOneEmail u applyOk st p.1 p.2) st).emailsByCategory
      = l.foldl (fun g p =>
          if u && (gmailActionsOf (p.2.category.getD "routine")).contains "apply_label"
          then setdefaultAppend g (p.2.category.getD "routine") p.1.id else g)
        st.emailsByCategory := by
  intro l
  induction l with
  | nil => intro st; rfl
  | cons x xs ih =>
      intro st
      simp only [List.foldl_cons]
      rw [ih]
      congr 1
      exact (processOneEmail_spec u applyOk st x.1 x.2).2.2.2

theorem canon_setdefaultAppend (g : List (String × List (Option String)))
    (F : String → List (Option String)) (k : String) (v : Option String)
    (hg : ∀ c, g.filter (fun p => p.1 = c) = if F c = [] then [] else [(c, F c)]) :
    ∀ c, (setdefaultAppend g k v).filter (fun p => p.1 = c)
      = if (if c = k then F c ++ [v] else F c) = [] then []
        else [(c, if c = k then F c ++ [v] else F c)] := by
  intro c
  unfold setdefaultAppend
  by_cases hany : g.any (fun p => p.1 = k)
  · rw [if_pos hany]
    have hcomm : (g.map (fun p => if p.1 = k then (p.1, p.2 ++ [v]) else p)).filter
          (fun p => p.1 = c)
        = (g.filter (fun p => p.1 = c)).map
            (fun p => if p.1 = k then (p.1, p.2 ++ [v]) else p) := by
      rw [List.filter_map]
      congr 1
      apply List.filter_congr
      intro q _
      by_cases hq : q.1 = k <;> simp [hq]
    rw [hcomm, hg c]
    have hFk : F k ≠ [] := by
      intro hFke
      rcases List.any_eq_true.mp hany with ⟨p, hp, hpk⟩
      have hmem : p ∈ g.filter (fun p => p.1 = k) :=
        List.mem_filter.mpr ⟨hp, hpk⟩
      rw [hg k, if_pos hFke] at hmem
      simp at hmem
    by_cases hck : c = k
    · subst hck
      rw [if_neg hFk]
      simp
    · split_ifs with hFc
      · simp [hFc]
      · simp [hck]
  · rw [if_neg hany]
    rw [List.filter_append]
    have hgK : ∀ p ∈ g, ¬ p.1 = k := by
      intro p hp hpk
      exact hany (List.any_eq_true.mpr ⟨p, hp, by simp [hpk]⟩)
    by_cases hck : c = k
    · subst hck
      have hempty : g.filter (fun p => p.1 = c) = [] :=
        List.filter_eq_nil.mpr (fun p hp => by simp [hgK p hp])
      have hFc : F c = [] := by
        by_cases hF : F c = []
        · exact hF
        · have := hg c
          rw [hempty, if_neg hF] at this
          exact absurd this.symm (by simp)
      rw [hempty, hFc]
      simp
    · rw [hg c]
      have hone : ([(k, [v])].filter (fun p => p.1 = c)) = [] := by
        simp [Ne.symm hck]
      rw [hone]
      simp [hck]

theorem canon_groupFold :
    ∀ (l : List (EmailInput × CategorizationInput))
      (g : List (String × List (Option String)))
      (F : String → List (Option String)),
    (∀ c, g.filter (fun p => p.1 = c) = if F c = [] then [] else [(c, F c)]) →
    ∀ c, (l.foldl (fun g p =>
        if true && (gmailActionsOf (p.2.category.getD "routine")).contains "apply_label"
        then setdefaultAppend g (p.2.category.getD "routine") p.1.id else g) g).filter
          (fun p => p.1 = c)
      = if (F c ++ l.filterMap (fun p =>
            if p.2.category.getD "routine" = c
              && (gmailActionsOf (p.2.category.getD "routine")).contains "apply_label"
            then some p.1.id else none)) = [] then []
        else [(c, F c ++ l.filterMap (fun p =>
            if p.2.category.getD "routine" = c
              && (gmailActionsOf (p.2.category.getD "routine")).contains "apply_label"
            then some p.1.id else none))] := by
  intro l
  induction l with
  | nil =>
      intro g F hg c
      simpa using hg c
  | cons x xs ih =>
      intro g F hg c
      simp only [List.foldl_cons, List.filterMap_cons]
      by_cases happ : (gmailActionsOf (x.2.category.getD "routine")).contains "apply_label"
      · rw [if_pos (by simp only [Bool.true_and]; exact happ)]
        have hres := ih (setdefaultAppend g (x.2.category.getD "routine") x.1.id)
          (fun c => if c = x.2.category.getD "routine" then F c ++ [x.1.id] else F c)
          (canon_setdefaultAppend g F (x.2.category.getD "routine") x.1.id hg) c
        rw [hres]
        have happm : "apply_label" ∈ gmailActionsOf (x.2.category.getD "routine") := by
          simpa using happ
        by_cases hc : x.2.category.getD "routine" = c
        · have hhead : (if (x.2.category.getD "routine" = c
              && (gmailActionsOf (x.2.category.getD "routine")).contains "apply_label")
              then some x.1.id else (none : Option (Option String)))
              = some x.1.id := by simp [hc, hc ▸ happm]
          rw [hhead, if_pos hc.symm]
          simp [List.append_assoc]
        · have hc2 : ¬ c = x.2.category.getD "routine" := fun h => hc h.symm
          have hhead : (if (x.2.category.getD "routine" = c
              && (gmailActionsOf (x.2.category.getD "routine")).contains "apply_label")
              then some x.1.id else (none : Option (Option String)))
              = none := by simp [hc]
          rw [hhead, if_neg hc2]
      · rw [if_neg (by simp only [Bool.true_and]; exact happ)]
        rw [ih g F hg c]
        have happm : "apply_label" ∉ gmailActionsOf (x.2.category.getD "routine") := by
          simpa using happ
        have hhead : (if (x.2.category.getD "routine" = c
            && (gmailActionsOf (x.2.category.getD "routine")).contains "apply_label")
            then some x.1.id else (none : Option (Option String)))
            = none := by simp [happm]
        rw [hhead]

theorem filter_filterMap_guard {α : Type} (f : α → Option α)
    (hf : ∀ a b, f a = some b → b = a) (q : α → Bool) :
    ∀ l : List α, (l.filterMap f).filter q = (l.filter q).filterMap f := by
  intro l
  induction l with
  | nil => rfl
  | cons a as ih =>
      simp only [List.filterMap_cons, List.filter_cons]
      cases hfa : f a with
      | none =>
          split_ifs <;> simp [List.filterMap_cons, hfa, ih]
      | some b =>
          have hb := hf a b hfa
          subst hb
          split_ifs with hq <;>
            simp [List.filter_cons, List.filterMap_cons, hfa, hq, ih]

/-- C10: in every call to `process_triage_results`, an email whose
categorization lies outside the five statistics keys (such as the engine's
`other` fallback) hits a `KeyError` — modelled by `statsIncr` returning the
error `str(KeyError(key))` — when the statistics counter is updated; the
per-email `except` catches it, appending `(email id, str(KeyError))` to the
errors list even though `processed_count` was already incremented for that
email, and the remaining emails are still processed: the processed count
always equals the full request length, the errors list collects exactly the
out-of-enumeration emails in order, and the statistics count exactly the
in-enumeration categories. -/

theorem c10_statistics_keyerror : ∀ (useBatch : Bool)
    (applyOk : Option String → String → Bool)
    (emails : List EmailInput) (czs : List CategorizationInput),
    emails.length = czs.length →
    (processTriageResults useBatch applyOk emails czs).success = true
    ∧ (processTriageResults useBatch applyOk emails czs).processedCount = emails.length
    ∧ (processTriageResults useBatch applyOk emails czs).errors
        = (emails.zip czs).filterMap (fun p =>
            if p.2.category.getD "routine" = "urgent" ∨ p.2.category.getD "routine" = "important"
              ∨ p.2.category.getD "routine" = "routine"
              ∨ p.2.category.getD "routine" = "promotional"
              ∨ p.2.category.getD "routine" = "spam" then none
            else some (p.1.id, keyErrorStr (p.2.category.getD "routine")))
    ∧ (processTriageResults useBatch applyOk emails czs).statistics
        = { urgent := ((emails.zip czs).filter
              (fun p => p.2.category.getD "routine" = "urgent")).length,
            important := ((emails.zip czs).filter
              (fun p => p.2.category.getD "routine" = "important")).length,
            routine := ((emails.zip czs).filter
              (fun p => p.2.category.getD "routine" = "routine")).length,
            promotional := ((emails.zip czs).filter
              (fun p => p.2.category.getD "routine" = "promotional")).length,
            spam := ((emails.zip czs).filter
              (fun p => p.2.category.getD "routine" = "spam")).length } := by
  intro u applyOk emails czs hlen
  unfold processTriageResults
  rw [if_neg (fun h => h hlen)]
  dsimp only
  refine ⟨rfl, ?_, ?_, ?_⟩
  · rw [triage_fold_processed]
    simp [List.length_zip, hlen]
  · rw [triage_fold_errors]
    simp
  · obtain ⟨hu, hi, hr, hpm, hsp⟩ := triage_fold_stats u applyOk (emails.zip czs)
      ⟨0, [], [], ⟨0, 0, 0, 0, 0⟩, []⟩
    rw [show ((emails.zip czs).foldl (fun st p => processOneEmail u applyOk st p.1 p.2)
        ⟨0, [], [], ⟨0, 0, 0, 0, 0⟩, []⟩).statistics
      = (⟨((emails.zip czs).foldl (fun st p => processOneEmail u applyOk st p.1 p.2)
            ⟨0, [], [], ⟨0, 0, 0, 0, 0⟩, []⟩).statistics.urgent,
          ((emails.zip czs).foldl (fun st p => processOneEmail u applyOk st p.1 p.2)
            ⟨0, [], [], ⟨0, 0, 0, 0, 0⟩, []⟩).statistics.important,
          ((emails.zip czs).foldl (fun st p => processOneEmail u applyOk st p.1 p.2)
            ⟨0, [], [], ⟨0, 0, 0, 0, 0⟩, []⟩).statistics.routine,
          ((emails.zip czs).foldl (fun st p => processOneEmail u applyOk st p.1 p.2)
            ⟨0, [], [], ⟨0, 0, 0, 0, 0⟩, []⟩).statistics.promotional,
          ((emails.zip czs).foldl (fun st p => processOneEmail u applyOk st p.1 p.2)
            ⟨0, [], [], ⟨0, 0, 0, 0, 0⟩, []⟩).statistics.spam⟩ : Stats) from rfl]
    rw [hu, hi, hr, hpm, hsp]
    simp


/-- Witness for `c10_statistics_keyerror`: three emails of which the first
is categorized `other`; all three are processed, the statistics count the
urgent and routine emails, and the `other` email alone lands in the errors
list with message `str(KeyError("other"))`. -/
theorem c10_statistics_keyerror_witness :
    triageEmails.length = triageCzsOther.length
    ∧ (processTriageResults true applyOkAll triageEmails triageCzsOther).processedCount = 3
    ∧ (processTriageResults true applyOkAll triageEmails triageCzsOther).errors
        = [(some "g1", keyErrorStr "other")]
    ∧ (processTriageResults true applyOkAll triageEmails triageCzsOther).statistics
        = ⟨1, 0, 1, 0, 0⟩ := by
  have h := c10_statistics_keyerror true applyOkAll triageEmails triageCzsOther rfl
  refine ⟨rfl, ?_, ?_, ?_⟩
  · rw [h.2.1]
    decide
  · rw [h.2.2.1]
    decide
  · rw [h.2.2.2]
    decide

/-- C5: in batch mode `process_triage_results` groups message ids by
category across the whole request and issues exactly one batched
label-application call (`gmail_service.batch_modify`) per category with a
non-empty group and a resolved FYXERAI label: for every category the trace
of batch calls contains exactly one entry carrying exactly that category's
grouped ids when the group is non-empty (and none otherwise). -/
theorem c5_batch_grouping : ∀ (applyOk : Option String → String → Bool)
    (emails : List EmailInput) (czs : List CategorizationInput),
    emails.length = czs.length →
    ∀ c : String,
      (processTriageResults true applyOk emails czs).batchCalls.filter (fun p => p.1 = c)
        = if applyLabelIds emails czs c = [] ∨ c ∉ FYXERAI_LABEL_CATS then []
          else [(c, applyLabelIds emails czs c)] := by
  intro applyOk emails czs hlen c
  unfold processTriageResults
  rw [if_neg (fun h => h hlen)]
  dsimp only
  have hgr := triage_fold_groups true applyOk (emails.zip czs)
    ⟨0, [], [], ⟨0, 0, 0, 0, 0⟩, []⟩
  have hcanon := canon_groupFold (emails.zip czs) [] (fun _ => [])
    (by intro c0; simp) c
  simp only [List.nil_append] at hcanon
  have hids : applyLabelIds emails czs c
      = (emails.zip czs).filterMap (fun p =>
          if p.2.category.getD "routine" = c
            && (gmailActionsOf (p.2.category.getD "routine")).contains "apply_label"
          then some p.1.id else none) := rfl
  by_cases hGe : ((emails.zip czs).foldl
      (fun st p => processOneEmail true applyOk st p.1 p.2)
      ⟨0, [], [], ⟨0, 0, 0, 0, 0⟩, []⟩).emailsByCategory.isEmpty
  · have hGnil : ((emails.zip czs).foldl
        (fun st p => processOneEmail true applyOk st p.1 p.2)
        ⟨0, [], [], ⟨0, 0, 0, 0, 0⟩, []⟩).emailsByCategory = [] :=
      List.isEmpty_iff.mp hGe
    have hidsnil : applyLabelIds emails czs c = [] := by
      rw [hids]
      have hthis := hcanon
      rw [← hgr, hGnil] at hthis
      by_cases hn : (emails.zip czs).filterMap (fun p =>
          if p.2.category.getD "routine" = c
            && (gmailActionsOf (p.2.category.getD "routine")).contains "apply_label"
          then some p.1.id else none) = []
      · exact hn
      · rw [if_neg hn] at hthis
        exact absurd hthis (by simp)
    rw [if_pos (Or.inl hidsnil)]
    simp [hGe]
  · have hbc : (if true && !((emails.zip czs).foldl
        (fun st p => processOneEmail true applyOk st p.1 p.2)
        ⟨0, [], [], ⟨0, 0, 0, 0, 0⟩, []⟩).emailsByCategory.isEmpty
      then ((emails.zip czs).foldl
        (fun st p => processOneEmail true applyOk st p.1 p.2)
        ⟨0, [], [], ⟨0, 0, 0, 0, 0⟩, []⟩).emailsByCategory.filterMap
          (fun p => if !p.2.isEmpty && FYXERAI_LABEL_CATS.contains p.1 then some p else none)
      else [])
      = ((emails.zip czs).foldl
        (fun st p => processOneEmail true applyOk st p.1 p.2)
        ⟨0, [], [], ⟨0, 0, 0, 0, 0⟩, []⟩).emailsByCategory.filterMap
          (fun p => if !p.2.isEmpty && FYXERAI_LABEL_CATS.contains p.1 then some p else none) := by
      simp [hGe]
    rw [hbc]
    have hguard : ∀ (a b : String × List (Option String)),
        (if !a.2.isEmpty && FYXERAI_LABEL_CATS.contains a.1 then some a else none) = some b →
        b = a := by
      intro a b hab
      split_ifs at hab <;> simp_all
    rw [filter_filterMap_guard _ hguard]
    rw [hgr, hcanon, ← hids]
    by_cases hn : applyLabelIds emails czs c = []
    · rw [if_pos hn, if_pos (Or.inl hn)]
      rfl
    · rw [if_neg hn]
      by_cases hf : c ∈ FYXERAI_LABEL_CATS
      · rw [if_neg (by simp [hn, hf])]
        simp [hn, hf]
      · rw [if_pos (Or.inr hf)]
        simp [hf]

/-- Witness for `c5_batch_grouping`: 3 messages, 2 categorized `urgent` and
1 `routine`, produce exactly 2 batch mutation calls — one per category —
not 3. -/
theorem c5_batch_grouping_witness :
    triageEmails.length = triageCzs.length
    ∧ (processTriageResults true applyOkAll triageEmails triageCzs).batchCalls.filter
        (fun p => p.1 = "urgent") = [("urgent", [some "g1", some "g2"])]
    ∧ (processTriageResults true applyOkAll triageEmails triageCzs).batchCalls.filter
        (fun p => p.1 = "routine") = [("routine", [some "g3"])]
    ∧ (processTriageResults true applyOkAll triageEmails triageCzs).batchCalls.length = 2 := by
  have hu := c5_batch_grouping applyOkAll triageEmails triageCzs rfl "urgent"
  have hr := c5_batch_grouping applyOkAll triageEmails triageCzs rfl "routine"
  refine ⟨rfl, ?_, ?_, by decide⟩
  · rw [hu]
    decide
  · rw [hr]
    decide

end Fyxerai
